import Mathlib

/-!
Shallow embedding of the order-lifecycle and entitlement core of the
Kumar-Visuals backend: pricing and order assembly, the settlement engine
(markOrderPaidAndGrantAccess), the promo usage guard, the razorpay webhook
handlers, the client-verify endpoint, the refund service and the idle-order
reaper.  Money is modelled as rationals with explicit rounding to two
decimals; timestamps are integers (epoch milliseconds); the JavaScript
setMonth-based month addition is an abstract function carried in the
environment; the Mongo store is a record of in-memory lists, and the
multi-document transaction of the settlement engine is modelled by building
the successor state explicitly and discarding it when any step fails.
-/

namespace KumarVisuals

abbrev Money : Type := ℚ

abbrev Timestamp : Type := ℤ

/-- Two-decimal rounding, the model of JavaScript `Number(x.toFixed(2))`. -/
def round2 (x : Money) : Money := (round (x * 100) : ℚ) / 100

/-- Order.model.js: the `status` enum of an order. -/
inductive OrderStatus
  | PENDING
  | PAID
  | FAILED
  | CANCELLED
  | REFUND_INITIATED
  | REFUNDED
deriving DecidableEq, Repr

/-- Order.model.js: an order item snapshot. -/
structure OrderItem where
  product : Nat
  titleSnapshot : String
  priceSnapshot : Money
  mrpSnapshot : Money
  currencySnapshot : String
  discountPercentSnapshot : ℤ
deriving DecidableEq, Repr

/-- Order.model.js: the order document (fields the core reads or writes). -/
structure Order where
  id : Nat
  user : Nat
  items : List OrderItem
  membershipPlanKey : Option String
  membershipMonths : ℤ
  currency : String
  subtotal : Money
  tax : Money
  convenienceFee : Money
  total : Money
  status : OrderStatus
  cancelReason : Option String
  promoCode : Option String
  promoDiscount : Money
  paymentOrderId : Option String
  paymentId : Option String
  paymentSignature : Option String
  completedAt : Option Timestamp
  createdAt : Timestamp
deriving DecidableEq, Repr

/-- User.model.js: the embedded membership document. -/
structure Membership where
  planKey : Option String
  startedAt : Option Timestamp
  expiresAt : Option Timestamp
  status : String
deriving DecidableEq, Repr

/-- User.model.js: the monthly usage window. -/
structure MembershipUsage where
  periodStart : Option Timestamp
  downloadsUsed : ℤ
  remixRequestsUsed : ℤ
deriving DecidableEq, Repr

/-- User.model.js: one entry of `purchasedProducts`. -/
structure PurchasedProduct where
  product : Nat
  purchasedAt : Timestamp
  source : String
deriving DecidableEq, Repr

/-- User.model.js: the user document (fields the core reads or writes). -/
structure User where
  id : Nat
  isDeleted : Bool
  isBanned : Bool
  purchasedProducts : List PurchasedProduct
  membership : Membership
  membershipUsage : MembershipUsage
deriving DecidableEq, Repr

/-- PromoCode.model.js as read by order.service.js. -/
structure PromoCode where
  code : String
  isActive : Bool
  discountType : String
  discountValue : Money
  maxDiscount : Money
  minOrderAmount : Money
  usageLimit : Option ℤ
  usedCount : ℤ
  expiresAt : Option Timestamp
deriving DecidableEq, Repr

/-- Product.model.js as read by the pricing path. -/
structure Product where
  id : Nat
  title : String
  price : Money
  mrp : Option Money
  currency : Option String
  visibility : String
deriving DecidableEq, Repr

/-- MembershipPlan.model.js as read by the membership pricing path. -/
structure MembershipPlan where
  key : String
  price : Money
  currency : Option String
  isActive : Bool
deriving DecidableEq, Repr

/-- The Mongo store: one collection per model. -/
structure DB where
  orders : List Order
  users : List User
  promos : List PromoCode
  products : List Product
  plans : List MembershipPlan
deriving DecidableEq, Repr

/-- Ambient environment: the clock, the JavaScript `setMonth` month addition
(abstract: every theorem holds for every such function), and the HMAC-SHA256
keyed with the razorpay secret used by the client-verify endpoint. -/
structure Env where
  now : Timestamp
  addMonths : Timestamp → ℤ → Timestamp
  hmacSha256 : String → String

/-- `Order.findById`. -/
def findOrder (db : DB) (id : Nat) : Option Order :=
  db.orders.find? (fun o => o.id == id)

/-- `User.findById`. -/
def findUser (db : DB) (id : Nat) : Option User :=
  db.users.find? (fun u => u.id == id)

/-- `Order.findOne with paymentOrderId` (webhook lookup by remote order id). -/
def findOrderByPaymentOrderId (db : DB) (remoteId : String) : Option Order :=
  db.orders.find? (fun o => o.paymentOrderId == some remoteId)

/-- `Order.findOne with paymentId` (refund webhook lookup). -/
def findOrderByPaymentId (db : DB) (pid : String) : Option Order :=
  db.orders.find? (fun o => o.paymentId == some pid)

/-- Persist an order document: replace the stored orders carrying its id. -/
def updateOrder (db : DB) (o : Order) : DB :=
  { db with orders := db.orders.map (fun x => if x.id == o.id then o else x) }

/-- Persist a user document: replace the stored users carrying its id. -/
def updateUser (db : DB) (u : User) : DB :=
  { db with users := db.users.map (fun x => if x.id == u.id then u else x) }

/-- `updateOne` semantics on a list: rewrite the first element matching the
filter, leave the rest untouched. -/
def updateFirst {α : Type} (pred : α → Bool) (f : α → α) : List α → List α
  | [] => []
  | x :: xs => if pred x then f x :: xs else x :: updateFirst pred f xs

/-- order.service.js `updatePromoUsage`: the single guarded conditional
update — match `code, isActive, usageLimit null or 0 or usedCount below
usageLimit`, increment `usedCount` on the match, and demand exactly one
modified document. -/
def promoUsageGuard (code : String) (p : PromoCode) : Bool :=
  p.code == code && p.isActive &&
    (p.usageLimit == none || p.usageLimit == some 0 ||
      (match p.usageLimit with
       | some l => decide (p.usedCount < l)
       | none => true))

def updatePromoUsage (db : DB) (code : String) : Except String DB :=
  if db.promos.any (promoUsageGuard code) then
    .ok { db with
      promos := updateFirst (promoUsageGuard code)
        (fun p => { p with usedCount := p.usedCount + 1 }) db.promos }
  else
    .error "Promo code usage limit exceeded"

/-- order.service.js `activateMembership`: renewal of the same still-active
plan extends from the current expiry and preserves `startedAt` and the usage
window; every other case starts fresh from now and resets the counters. -/
def activateMembership (env : Env) (order : Order) (user : User) : User :=
  let now := env.now
  let current := user.membership
  let isActive : Bool :=
    current.status == "ACTIVE" &&
      (match current.expiresAt with
       | some e => decide (now < e)
       | none => false) &&
      current.planKey == order.membershipPlanKey
  let usage : MembershipUsage :=
    if isActive then user.membershipUsage
    else { periodStart := some now, downloadsUsed := 0, remixRequestsUsed := 0 }
  let baseDate : Timestamp :=
    match current.expiresAt with
    | some e => if isActive then e else now
    | none => now
  let months : ℤ :=
    if order.membershipMonths == 0 then 1 else order.membershipMonths
  { user with
      membershipUsage := usage,
      membership :=
        { planKey := order.membershipPlanKey,
          status := "ACTIVE",
          startedAt := if isActive then current.startedAt else some now,
          expiresAt := some (env.addMonths baseDate months) } }

/-- order.service.js `grantProductAccess`: append the order's products that
the user does not own yet; owned products are never duplicated. -/
def grantProductAccess (env : Env) (order : Order) (user : User) : User :=
  let productIds := order.items.map (fun i => i.product)
  if productIds.isEmpty then user
  else
    let existing := user.purchasedProducts.map (fun p => p.product)
    let newPurchases := (productIds.filter (fun id => !(existing.contains id))).map
      (fun id => ({ product := id, purchasedAt := env.now, source := "order" } : PurchasedProduct))
    if newPurchases.isEmpty then user
    else { user with purchasedProducts := user.purchasedProducts ++ newPurchases }

/-- Arguments of a settlement call. -/
structure SettleArgs where
  orderId : Nat
  paymentId : String
  paymentSignature : String
deriving DecidableEq, Repr

/-- The PAID document written in step 4 of the transaction: flip the status
and stamp the payment fields. -/
def settlePaidDoc (env : Env) (a : SettleArgs) (order : Order) : Order :=
  { order with
      status := OrderStatus.PAID,
      paymentId := some a.paymentId,
      paymentSignature := some a.paymentSignature,
      completedAt := some env.now }

/-- Step 5 of the transaction: the guarded promo increment when the order
carried a code. -/
def settlePromoStep (db1 : DB) (paid : Order) : Except String DB :=
  match paid.promoCode with
  | some c => updatePromoUsage db1 c
  | none => .ok db1

/-- Steps 6-8 of the transaction: load the user, refuse deleted and banned
accounts, grant the entitlement, persist the user. -/
def settleGrantStep (env : Env) (paid : Order) (afterPromo : Except String DB) :
    Except String (DB × Order) :=
  match afterPromo with
  | .error e => .error e
  | .ok db2 =>
    match findUser db2 paid.user with
    | none => .error "Invalid user state"
    | some user =>
      if user.isDeleted || user.isBanned then .error "Invalid user state"
      else
        .ok (updateUser db2
          (if paid.membershipPlanKey.isSome then activateMembership env paid user
           else grantProductAccess env paid user), paid)

/-- Steps 4-8 on a PENDING order. -/
def settleCore (env : Env) (db : DB) (a : SettleArgs) (order : Order) :
    Except String (DB × Order) :=
  settleGrantStep env (settlePaidDoc env a order)
    (settlePromoStep (updateOrder db (settlePaidDoc env a order))
      (settlePaidDoc env a order))

/-- The body of the settlement transaction in
`markOrderPaidAndGrantAccess`: load, already-PAID short circuit, status
gate, then steps 4-8.  The successor store is built explicitly; an error
anywhere yields no store at all. -/
def settleTx (env : Env) (db : DB) (a : SettleArgs) : Except String (DB × Order) :=
  match findOrder db a.orderId with
  | none => .error "Order not found"
  | some order =>
    if order.status == OrderStatus.PAID then .ok (db, order)
    else if order.status != OrderStatus.PENDING then
      .error "Cannot process order with this status"
    else settleCore env db a order

/-- order.service.js `markOrderPaidAndGrantAccess`: run the transaction;
commit the successor store on success, abort (keep the original store) and
propagate the error on failure. -/
def markOrderPaidAndGrantAccess (env : Env) (db : DB) (a : SettleArgs) :
    DB × Except String Order :=
  match settleTx env db a with
  | .ok (db2, o) => (db2, .ok o)
  | .error e => (db, .error e)

/-- A sequence of settlement calls, threading the store. -/
def runSettleSeq (env : Env) (db : DB) (calls : List SettleArgs) : DB :=
  calls.foldl (fun d a => (markOrderPaidAndGrantAccess env d a).1) db

/-- Settle a list of orders (one call each), counting the calls that threw. -/
def settleAll (env : Env) (pid sig : String) (db : DB) (ids : List Nat) : DB × Nat :=
  ids.foldl
    (fun acc i =>
      match markOrderPaidAndGrantAccess env acc.1 ⟨i, pid, sig⟩ with
      | (d, .ok _) => (d, acc.2)
      | (d, .error _) => (d, acc.2 + 1))
    (db, 0)

/-- Outcome of `initiateRefund`: the resulting store, the result or the
thrown error, and whether the razorpay refund API was actually invoked. -/
structure RefundOutcome where
  db : DB
  result : Except String Unit
  gatewayRefundCalled : Bool

/-- The REFUND_INITIATED pre-lock document. -/
def refundLockedDoc (locked0 : Order) : Order :=
  { locked0 with status := OrderStatus.REFUND_INITIATED }

/-- refund.service.js `initiateRefund`: guard on a present `paymentId` and a
PAID in-memory status, pre-lock the stored order PAID to REFUND_INITIATED by
a conditional update, call the gateway refund API (`apiOk` is the gateway's
answer), and roll the status back to PAID when the API call fails. -/
def initiateRefund (apiOk : Bool) (db : DB) (order : Order) : RefundOutcome :=
  if order.paymentId == none then
    ⟨db, .error "Invalid order or missing paymentId", false⟩
  else if order.status != OrderStatus.PAID then
    ⟨db, .error "Refund not allowed", false⟩
  else
    match db.orders.find? (fun o => o.id == order.id && o.status == OrderStatus.PAID) with
    | none => ⟨db, .error "Refund already in progress or completed", false⟩
    | some locked0 =>
      if apiOk then ⟨updateOrder db (refundLockedDoc locked0), .ok (), true⟩
      else
        ⟨updateOrder (updateOrder db (refundLockedDoc locked0))
            { refundLockedDoc locked0 with status := OrderStatus.PAID },
          .error "Refund API failed", true⟩

/-- An HTTP response of the webhook endpoint. -/
structure HttpResponse where
  status : Nat
  body : String
deriving DecidableEq, Repr

/-- Payment webhook events handled by `handlePaymentEvent`. -/
inductive PaymentEvent
  | captured
  | failed
deriving DecidableEq, Repr

/-- Result of one webhook handler invocation: the store it left behind, a
response or an escaped exception, and whether the gateway refund API was
invoked. -/
structure WebhookStep where
  db : DB
  response : Except String HttpResponse
  gatewayRefundCalled : Bool

/-- The in-memory document the webhook writes when settlement throws. -/
def webhookFailedDoc (order : Order) : Order :=
  { order with status := OrderStatus.FAILED, cancelReason := some "SYSTEM_CANCELLED" }

/-- The catch block of the payment.captured branch: persist the forced
FAILED transition, then call `initiateRefund` on the in-memory document;
an exception from the refund call escapes. -/
def webhookCompensate (apiOk : Bool) (db1 : DB) (order : Order) : WebhookStep :=
  match initiateRefund apiOk (updateOrder db1 (webhookFailedDoc order))
      (webhookFailedDoc order) with
  | ⟨db3, .ok _, called⟩ =>
    ⟨db3, .ok ⟨200, "Delivery failed, refund initiated"⟩, called⟩
  | ⟨db3, .error e, called⟩ => ⟨db3, .error e, called⟩

/-- adminSettingsController.js `handlePaymentEvent`: look the order up by
its remote order id, short-circuit already-PAID and CANCELLED orders, mark
PENDING orders FAILED on payment.failed, settle on payment.captured, and on
a settlement failure force the order to FAILED with SYSTEM_CANCELLED and
call `initiateRefund` on the in-memory document. -/
def handlePaymentEvent (env : Env) (apiOk : Bool) (db : DB) (event : PaymentEvent)
    (remoteOrderId razorpayPaymentId : String) : WebhookStep :=
  match findOrderByPaymentOrderId db remoteOrderId with
  | none => ⟨db, .ok ⟨200, "Order not found"⟩, false⟩
  | some order =>
    if order.status == OrderStatus.PAID && event == PaymentEvent.captured then
      ⟨db, .ok ⟨200, "Already processed"⟩, false⟩
    else if order.status == OrderStatus.CANCELLED then
      ⟨db, .ok ⟨200, "Order cancelled earlier"⟩, false⟩
    else
      match event with
      | .failed =>
        if order.status == OrderStatus.PENDING then
          ⟨updateOrder db
              { order with status := OrderStatus.FAILED, cancelReason := some "PAYMENT_FAILED" },
            .ok ⟨200, "Payment failed handled"⟩, false⟩
        else ⟨db, .ok ⟨200, "Payment failed handled"⟩, false⟩
      | .captured =>
        if order.status != OrderStatus.PENDING then
          ⟨db, .ok ⟨200, "Order not pending"⟩, false⟩
        else
          match markOrderPaidAndGrantAccess env db
              ⟨order.id, razorpayPaymentId, "razorpay-webhook"⟩ with
          | (db1, .ok _) => ⟨db1, .ok ⟨200, "Payment captured & delivered"⟩, false⟩
          | (db1, .error _) => webhookCompensate apiOk db1 order

/-- adminSettingsController.js `handleRefundEvent`: look the order up by the
refunded payment id; ignore orders already REFUNDED or not currently PAID;
otherwise stamp the order REFUNDED. -/
def handleRefundEvent (db : DB) (paymentId : String) : DB × HttpResponse :=
  match findOrderByPaymentId db paymentId with
  | none => (db, ⟨200, "Order not found"⟩)
  | some order =>
    if order.status == OrderStatus.REFUNDED then (db, ⟨200, "Already refunded"⟩)
    else if order.status != OrderStatus.PAID then (db, ⟨200, "Refund ignored"⟩)
    else
      (updateOrder db { order with status := OrderStatus.REFUNDED },
        ⟨200, "Refund completed (status updated)"⟩)

/-- adminSettingsController.js `razorpayWebhookHandler` after the signature
over the raw body has been accepted: dispatch payment events and turn an
escaped exception into the 500 Internal error response. -/
def razorpayWebhook (env : Env) (apiOk : Bool) (db : DB) (event : PaymentEvent)
    (remoteOrderId razorpayPaymentId : String) : DB × HttpResponse × Bool :=
  let s := handlePaymentEvent env apiOk db event remoteOrderId razorpayPaymentId
  match s.response with
  | .ok r => (s.db, r, s.gatewayRefundCalled)
  | .error _ => (s.db, ⟨500, "Internal error"⟩, s.gatewayRefundCalled)

/-- Response of the client-verify endpoint: HTTP status, the `success` flag
of the JSON body, and the message. -/
structure VerifyResponse where
  status : Nat
  success : Bool
  message : String
deriving DecidableEq, Repr

/-- orderController.js `verifyOrder`: authenticate the caller, load the
order, short-circuit already-PAID orders (success on a matching payment id,
conflict otherwise), gate on PENDING, require ownership, check the remote
order id linkage, recompute the HMAC signature, then settle. -/
def verifyOrder (env : Env) (db : DB) (callerId : Nat) (orderId : Nat)
    (razorpayOrderId razorpayPaymentId razorpaySignature : String) : DB × VerifyResponse :=
  match findUser db callerId with
  | none => (db, ⟨401, false, "Unauthorized"⟩)
  | some u =>
    if u.isDeleted then (db, ⟨401, false, "Unauthorized"⟩)
    else
      match findOrder db orderId with
      | none => (db, ⟨404, false, "Order not found"⟩)
      | some order =>
        if order.status == OrderStatus.PAID then
          if order.paymentId == some razorpayPaymentId then
            (db, ⟨200, true, "Order already verified via webhook"⟩)
          else (db, ⟨400, false, "Order already paid with a different payment ID"⟩)
        else if order.status != OrderStatus.PENDING then
          (db, ⟨400, false, "Order cannot be paid"⟩)
        else if order.user != callerId then (db, ⟨403, false, "Not your order"⟩)
        else if order.paymentOrderId != some razorpayOrderId then
          (db, ⟨400, false, "Order ID mismatch"⟩)
        else if env.hmacSha256 (razorpayOrderId ++ "|" ++ razorpayPaymentId)
            != razorpaySignature then
          (db, ⟨400, false, "Invalid payment signature"⟩)
        else
          match markOrderPaidAndGrantAccess env db
              ⟨orderId, razorpayPaymentId, razorpaySignature⟩ with
          | (db1, .ok _) => (db1, ⟨200, true, "success"⟩)
          | (db1, .error e) => (db1, ⟨500, false, e⟩)

/-- autoCancelController.js: the per-order effect of one reaper sweep at
time `env.now` — cancel a PENDING order at least two minutes old that has no
payment id attached, leave every other order untouched. -/
def sweepOrder (env : Env) (o : Order) : Order :=
  if o.status == OrderStatus.PENDING
      && decide (o.createdAt ≤ env.now - 120000)
      && o.paymentId == none then
    { o with
        status := OrderStatus.CANCELLED,
        cancelReason := some "PAYMENT_TIMEOUT",
        completedAt := some env.now }
  else o

/-- autoCancelController.js `autoCancelPendingOrders`: the bulk update of
one sweep. -/
def autoCancelPendingOrders (env : Env) (db : DB) : DB :=
  { db with orders := db.orders.map (sweepOrder env) }

/-- `[...new Set(ids)]`: deduplicate keeping the first occurrence. -/
def dedupFirst (l : List Nat) : List Nat :=
  l.foldl (fun acc x => if acc.contains x then acc else acc ++ [x]) []

/-- JavaScript `s.trim().toUpperCase()` applied to promo codes and plan
keys, implemented structurally over the character list. -/
def jsTrimUpper (s : String) : String :=
  String.mk (((s.data.dropWhile Char.isWhitespace).reverse.dropWhile
    Char.isWhitespace).reverse.map Char.toUpper)

/-- Expiry test of a promo document against the clock. -/
def promoExpired (env : Env) (promo : PromoCode) : Bool :=
  match promo.expiresAt with
  | some e => decide (e ≤ env.now)
  | none => false

/-- The raw discount before clamping: percentage of the subtotal capped at
`maxDiscount` when one is set, or the flat amount. -/
def promoRawDiscount (promo : PromoCode) (subtotal : Money) : Money :=
  if promo.discountType == "PERCENTAGE" then
    if promo.maxDiscount != 0 then
      min (subtotal * promo.discountValue / 100) promo.maxDiscount
    else subtotal * promo.discountValue / 100
  else if promo.discountType == "FIXED" then promo.discountValue
  else 0

/-- The discount after the clamp to the subtotal and the rounding. -/
def promoClampedDiscount (promo : PromoCode) (subtotal : Money) : Money :=
  round2 (min (promoRawDiscount promo subtotal) subtotal)

/-- order.service.js `applyPromoCode`: look up the active code, check
expiry and the minimum order amount, compute the percentage (capped) or
flat discount, clamp it to the subtotal, round, and reject a non-positive
result. -/
def applyPromoCode (env : Env) (db : DB) (promoCode : Option String)
    (subtotal : Money) : Except String (Money × Option String) :=
  match promoCode with
  | none => .ok (0, none)
  | some raw =>
    match db.promos.find? (fun p => p.code == jsTrimUpper raw && p.isActive) with
    | none => .error "Invalid or expired promo code"
    | some promo =>
      if promoExpired env promo then .error "Promo code has expired"
      else if promo.minOrderAmount != 0 && decide (subtotal < promo.minOrderAmount) then
        .error "Minimum order amount not met"
      else if promoClampedDiscount promo subtotal ≤ 0 then
        .error "Promo code cannot be applied"
      else .ok (promoClampedDiscount promo subtotal, some (jsTrimUpper raw))

/-- order.service.js `calculateOrderTotals`: reject a currency mismatch,
sum the prices, round. -/
def calculateOrderTotals (products : List Product) (currency : String) :
    Except String (Money × Money × Money) :=
  match products.find? (fun p => p.currency != none && p.currency != some currency) with
  | some _ => .error "Currency mismatch"
  | none =>
    let subtotal := round2 (products.foldl (fun s p => s + p.price) 0)
    let tax := round2 0
    .ok (subtotal, tax, round2 (subtotal + tax))

/-- order.service.js `prepareOrderItems`: snapshot each product. -/
def prepareOrderItems (products : List Product) (currency : String) : List OrderItem :=
  products.map (fun p =>
    { product := p.id,
      titleSnapshot := p.title,
      priceSnapshot := p.price,
      mrpSnapshot :=
        match p.mrp with
        | some m => if m == 0 then p.price else m
        | none => p.price,
      currencySnapshot :=
        match p.currency with
        | some c => c
        | none => currency,
      discountPercentSnapshot :=
        match p.mrp with
        | some m => if m != 0 && decide (p.price < m) then round ((m - p.price) / m * 100) else 0
        | none => 0 })

/-- Mongoose validation run by `Order.create`: the non-negativity bounds of
the amount fields and the items-or-membership payload validator. -/
def orderDocValid (o : Order) : Bool :=
  decide (0 ≤ o.subtotal) && decide (0 ≤ o.tax) && decide (0 ≤ o.total) &&
  decide (0 ≤ o.convenienceFee) && decide (0 ≤ o.promoDiscount) &&
  (!o.items.isEmpty || o.membershipPlanKey != none) &&
  o.items.all (fun i =>
    decide (0 ≤ i.priceSnapshot) && decide (0 ≤ i.mrpSnapshot) &&
    decide (0 ≤ i.discountPercentSnapshot))

/-- `Order.create`: validate and append the document. -/
def createOrderDoc (db : DB) (o : Order) : Except String (DB × Order) :=
  if orderDocValid o then .ok ({ db with orders := db.orders ++ [o] }, o)
  else .error "Order validation failed"

/-- A fresh order id for a created document. -/
def nextOrderId (db : DB) : Nat :=
  db.orders.foldl (fun m o => max m (o.id + 1)) 0

/-- The convenience fee: forced to 1 when the rounded discounted total is
non-positive. -/
def productFee (baseTotal discount : Money) : Money :=
  if round2 (baseTotal - discount) ≤ 0 then 1 else 0

/-- The payable total: forced to 1 when the rounded discounted total is
non-positive. -/
def productTotal (baseTotal discount : Money) : Money :=
  if round2 (baseTotal - discount) ≤ 0 then 1 else round2 (baseTotal - discount)

/-- The products of the catalog resolved for a requested id list, filtered
to public visibility. -/
def resolvePublicProducts (db : DB) (ids : List Nat) : List Product :=
  db.products.filter (fun p => p.visibility == "public" && ids.contains p.id)

/-- The independent recomputation cross-checked against the total. -/
def productFinalTotal (subtotal tax baseTotal discount : Money) : Money :=
  round2 (max 0 (subtotal + tax - discount) + productFee baseTotal discount)

/-- order.service.js `createPendingOrderForUser`: the product pricing path —
validate and deduplicate the ids, load the user (rejecting deleted and
banned accounts), reject duplicate purchases, resolve the public products,
validate prices and currency, apply the promo code, force the convenience
fee when the computed total is non-positive, cross-check the total, and
persist the PENDING order. -/
def createPendingOrderForUser (env : Env) (db : DB) (userId : Nat)
    (productIds : List Nat) (currency : String) (promoCode : Option String) :
    Except String (DB × Order) :=
  if productIds.isEmpty then .error "Products array is required"
  else if 50 < productIds.length then .error "Maximum 50 products per order"
  else
    match findUser db userId with
    | none => .error "User not found"
    | some user =>
      if user.isDeleted then .error "User not found"
      else if user.isBanned then .error "Account suspended"
      else if (dedupFirst productIds).any
          (fun id => (user.purchasedProducts.map (fun p => p.product)).contains id) then
        .error "Items already purchased"
      else if (resolvePublicProducts db (dedupFirst productIds)).length !=
          (dedupFirst productIds).length then
        .error "Some products are unavailable"
      else if (resolvePublicProducts db (dedupFirst productIds)).any
          (fun p => decide (p.price < 0)) then
        .error "Invalid product pricing"
      else
        match calculateOrderTotals (resolvePublicProducts db (dedupFirst productIds))
            currency with
        | .error e => .error e
        | .ok (subtotal, tax, baseTotal) =>
          match applyPromoCode env db promoCode subtotal with
          | .error e => .error e
          | .ok (discount, code) =>
            if 1/100 < |productFinalTotal subtotal tax baseTotal discount -
                productTotal baseTotal discount| then
              .error "Order calculation mismatch"
            else
              createOrderDoc db
                { id := nextOrderId db,
                  user := userId,
                  items := prepareOrderItems
                    (resolvePublicProducts db (dedupFirst productIds)) currency,
                  membershipPlanKey := none,
                  membershipMonths := 1,
                  currency := currency,
                  subtotal := subtotal,
                  tax := tax,
                  convenienceFee := productFee baseTotal discount,
                  total := productTotal baseTotal discount,
                  status := OrderStatus.PENDING,
                  cancelReason := none,
                  promoCode := code,
                  promoDiscount := discount,
                  paymentOrderId := none,
                  paymentId := none,
                  paymentSignature := none,
                  completedAt := none,
                  createdAt := env.now }

/-- order.service.js `createMembershipOrderForUser`: the membership pricing
path — load the user, resolve the active plan, clamp the months to 1..12,
price it, and persist the PENDING order. -/
def createMembershipOrderForUser (env : Env) (db : DB) (userId : Nat)
    (planKey : String) (months : ℤ) (currency : String) :
    Except String (DB × Order) :=
  match findUser db userId with
  | none => .error "User not found"
  | some user =>
    if user.isDeleted then .error "User not found"
    else if user.isBanned then .error "Account suspended"
    else
      match db.plans.find? (fun p => p.key == jsTrimUpper planKey && p.isActive) with
      | none => .error "Membership plan not found"
      | some plan =>
        createOrderDoc db
          { id := nextOrderId db,
            user := userId,
            items := [],
            membershipPlanKey := some (jsTrimUpper planKey),
            membershipMonths := max 1 (min months 12),
            currency := currency,
            subtotal := round2 (plan.price * (max 1 (min months 12) : ℤ)),
            tax := 0,
            convenienceFee := 0,
            total := round2 (round2 (plan.price * (max 1 (min months 12) : ℤ)) + 0),
            status := OrderStatus.PENDING,
            cancelReason := none,
            promoCode := none,
            promoDiscount := 0,
            paymentOrderId := none,
            paymentId := none,
            paymentSignature := none,
            completedAt := none,
            createdAt := env.now }

/-- The documented order status machine: identity, the PENDING fan-out, the
refund pre-lock and its rollback, and the webhook's refund completion. -/
def allowedTransition (a b : OrderStatus) : Bool :=
  (a == b) ||
  (a == OrderStatus.PENDING &&
    (b == OrderStatus.PAID || b == OrderStatus.FAILED || b == OrderStatus.CANCELLED)) ||
  (a == OrderStatus.PAID &&
    (b == OrderStatus.REFUND_INITIATED || b == OrderStatus.REFUNDED)) ||
  (a == OrderStatus.REFUND_INITIATED && b == OrderStatus.PAID)

/-- Every order present before and after an operation moved along
`allowedTransition`. -/
def preservesStatusMachine (db db2 : DB) : Prop :=
  ∀ o ∈ db.orders, ∀ o2 ∈ db2.orders, o2.id = o.id →
    allowedTransition o.status o2.status = true

/-- Every order an operation newly created is PENDING. -/
def newOrdersPending (db db2 : DB) : Prop :=
  ∀ o2 ∈ db2.orders, (∀ o ∈ db.orders, o.id ≠ o2.id) →
    o2.status = OrderStatus.PENDING

/-- The promo capacity invariant: used count within a positive usage limit. -/
def promoInvariant (db : DB) : Prop :=
  ∀ p ∈ db.promos, ∀ l : ℤ, p.usageLimit = some l → 0 < l → p.usedCount ≤ l

/-- Consecutive integer ids `s, s+1, ..., s+c-1`. -/
def idList : Nat → Nat → List Nat
  | _, 0 => []
  | s, c + 1 => s :: idList (s + 1) c

/- Concrete fixtures used by witnesses, counterexamples and the
promo-capacity run. -/

def env0 : Env := { now := 0, addMonths := fun t m => t + m, hmacSha256 := fun s => s }

def noMembership : Membership :=
  { planKey := none, startedAt := none, expiresAt := none, status := "NONE" }

def freshUsage : MembershipUsage :=
  { periodStart := none, downloadsUsed := 0, remixRequestsUsed := 0 }

def limitItem : OrderItem :=
  { product := 77, titleSnapshot := "Sample Pack", priceSnapshot := 100,
    mrpSnapshot := 100, currencySnapshot := "INR", discountPercentSnapshot := 0 }

/-- The buyer of the promo-capacity run: already owns product 77, so a
settlement of one of its orders never changes the user document. -/
def limitBuyer : User :=
  { id := 5, isDeleted := false, isBanned := false,
    purchasedProducts := [{ product := 77, purchasedAt := 0, source := "order" }],
    membership := noMembership, membershipUsage := freshUsage }

def limitPendingOrder (j : Nat) : Order :=
  { id := j, user := 5, items := [limitItem], membershipPlanKey := none,
    membershipMonths := 1, currency := "INR", subtotal := 100, tax := 0,
    convenienceFee := 0, total := 90, status := OrderStatus.PENDING,
    cancelReason := none, promoCode := some "LIMITED", promoDiscount := 10,
    paymentOrderId := some "rzp_order", paymentId := none,
    paymentSignature := none, completedAt := none, createdAt := 0 }

def limitPaidOrder (env : Env) (pid sig : String) (j : Nat) : Order :=
  { limitPendingOrder j with
      status := OrderStatus.PAID, paymentId := some pid,
      paymentSignature := some sig, completedAt := some env.now }

def limitPromo (N k : Nat) : PromoCode :=
  { code := "LIMITED", isActive := true, discountType := "FIXED",
    discountValue := 10, maxDiscount := 10, minOrderAmount := 0,
    usageLimit := some (N : ℤ), usedCount := (k : ℤ), expiresAt := none }

/-- The store of the promo-capacity run after `k` of the `N+1` PENDING
orders referencing the limit-`N` code have been settled. -/
def limitDb (env : Env) (pid sig : String) (N k : Nat) : DB :=
  { orders := (idList 1 (N + 1)).map
      (fun j => if j ≤ k then limitPaidOrder env pid sig j else limitPendingOrder j),
    users := [limitBuyer],
    promos := [limitPromo N k],
    products := [], plans := [] }

/-- C1 fixture: a banned buyer, so the webhook's settlement call throws. -/
def bannedBuyer : User :=
  { id := 9, isDeleted := false, isBanned := true, purchasedProducts := [],
    membership := noMembership, membershipUsage := freshUsage }

def strandedOrder : Order :=
  { id := 1, user := 9, items := [limitItem], membershipPlanKey := none,
    membershipMonths := 1, currency := "INR", subtotal := 100, tax := 0,
    convenienceFee := 0, total := 100, status := OrderStatus.PENDING,
    cancelReason := none, promoCode := none, promoDiscount := 0,
    paymentOrderId := some "rzp_1", paymentId := none,
    paymentSignature := none, completedAt := none, createdAt := 0 }

def webhookFailDb : DB :=
  { orders := [strandedOrder], users := [bannedBuyer], promos := [],
    products := [], plans := [] }

/-- C2/C10 fixture: a store holding one already-PAID order. -/
def paidDb : DB :=
  { orders := [limitPaidOrder env0 "pay_1" "sig_1" 1], users := [limitBuyer],
    promos := [limitPromo 3 1], products := [], plans := [] }

/-- C3 fixture: a CANCELLED order, so settlement aborts. -/
def cancelledDb : DB :=
  { orders := [{ limitPendingOrder 1 with status := OrderStatus.CANCELLED }],
    users := [limitBuyer], promos := [], products := [], plans := [] }

/-- C5 fixture: a public product priced 0.50 — the computed total 0.50 is
positive, so the convenience-fee branch does not fire, and the persisted
total is below 1. -/
def shopper : User :=
  { id := 5, isDeleted := false, isBanned := false, purchasedProducts := [],
    membership := noMembership, membershipUsage := freshUsage }

def cheapBeat : Product :=
  { id := 10, title := "Beat", price := 1/2, mrp := none,
    currency := some "INR", visibility := "public" }

def lowTotalDb : DB :=
  { orders := [], users := [shopper], promos := [],
    products := [cheapBeat], plans := [] }

/-- C6 fixture: a user whose PRO membership is still active at `env0.now`. -/
def renewalUser : User :=
  { id := 3, isDeleted := false, isBanned := false, purchasedProducts := [],
    membership :=
      { planKey := some "PRO", startedAt := some (-100), expiresAt := some 1000,
        status := "ACTIVE" },
    membershipUsage := { periodStart := some (-100), downloadsUsed := 2, remixRequestsUsed := 1 } }

def renewalOrder : Order :=
  { id := 4, user := 3, items := [], membershipPlanKey := some "PRO",
    membershipMonths := 1, currency := "INR", subtotal := 499, tax := 0,
    convenienceFee := 0, total := 499, status := OrderStatus.PENDING,
    cancelReason := none, promoCode := none, promoDiscount := 0,
    paymentOrderId := some "rzp_m", paymentId := none,
    paymentSignature := none, completedAt := none, createdAt := 0 }

/-- C7 fixture: a PAID order the refund webhook will move to REFUNDED. -/
def refundWebDb : DB :=
  { orders := [limitPaidOrder env0 "pay_1" "sig_1" 1], users := [],
    promos := [], products := [], plans := [] }

/-- C10 fixture: a store whose order is already REFUND_INITIATED. -/
def lockedDb : DB :=
  { orders := [{ limitPaidOrder env0 "pay_1" "sig_1" 1 with
      status := OrderStatus.REFUND_INITIATED }],
    users := [limitBuyer], promos := [], products := [], plans := [] }

/-- C8 fixture: the PAID order belongs to user 5; user 2 is someone else. -/
def otherUser : User :=
  { id := 2, isDeleted := false, isBanned := false, purchasedProducts := [],
    membership := noMembership, membershipUsage := freshUsage }

def verifyDb : DB :=
  { orders := [limitPaidOrder env0 "pay_1" "sig_1" 3],
    users := [limitBuyer, otherUser], promos := [], products := [], plans := [] }

/-- C9 fixture: a stale PENDING order without payment id, plus a fresh one
and one that already carries a payment id. -/
def staleOrder : Order := { limitPendingOrder 1 with createdAt := -200000 }

def freshOrder : Order := { limitPendingOrder 2 with createdAt := -30000 }

def stampedOrder : Order :=
  { limitPendingOrder 3 with createdAt := -200000, paymentId := some "pay_9" }

def reaperDb : DB :=
  { orders := [staleOrder, freshOrder, stampedOrder], users := [],
    promos := [], products := [], plans := [] }

/-- The order `createPendingOrderForUser` persists on the `lowTotalDb`
fixture: subtotal 0.50, no discount, total 0.50 with no convenience fee. -/
def lowTotalOrder : Order :=
  { id := 0, user := 5,
    items := [{ product := 10, titleSnapshot := "Beat", priceSnapshot := 1/2,
                mrpSnapshot := 1/2, currencySnapshot := "INR",
                discountPercentSnapshot := 0 }],
    membershipPlanKey := none, membershipMonths := 1, currency := "INR",
    subtotal := 1/2, tax := 0, convenienceFee := 0, total := 1/2,
    status := OrderStatus.PENDING, cancelReason := none,
    promoCode := none, promoDiscount := 0,
    paymentOrderId := none, paymentId := none, paymentSignature := none,
    completedAt := none, createdAt := 0 }

/-! ### Helper lemmas -/

lemma round2_zero : round2 0 = 0 := by
  simp [round2]

lemma round2_intDiv (n : ℤ) : round2 ((n : ℚ) / 100) = (n : ℚ) / 100 := by
  rw [round2, div_mul_cancel₀ _ (by norm_num : (100 : ℚ) ≠ 0), round_intCast]

lemma round2_exists_int (x : Money) : ∃ n : ℤ, round2 x = (n : ℚ) / 100 :=
  ⟨round (x * 100), rfl⟩

lemma round2_mono {x y : Money} (h : x ≤ y) : round2 x ≤ round2 y := by
  have hr : round (x * 100) ≤ round (y * 100) := by
    rw [round_eq, round_eq]
    exact Int.floor_mono (by linarith)
  have hc : ((round (x * 100) : ℤ) : ℚ) ≤ ((round (y * 100) : ℤ) : ℚ) :=
    Int.cast_le.2 hr
  rw [round2, round2]
  linarith

lemma round2_nonneg {x : Money} (h : 0 ≤ x) : 0 ≤ round2 x := by
  have := round2_mono h
  rwa [round2_zero] at this

lemma round2_idem (x : Money) : round2 (round2 x) = round2 x := by
  obtain ⟨n, hn⟩ := round2_exists_int x
  rw [hn, round2_intDiv]

lemma mem_idList {i : Nat} : ∀ {c s : Nat}, i ∈ idList s c ↔ s ≤ i ∧ i < s + c := by
  intro c
  induction c with
  | zero => intro s; simp [idList]
  | succ c ih =>
    intro s
    simp only [idList, List.mem_cons, ih]
    omega

lemma find?_map_idList (g : Nat → Order) (hg : ∀ j, (g j).id = j) :
    ∀ (c s i : Nat), s ≤ i → i < s + c →
      ((idList s c).map g).find? (fun o => o.id == i) = some (g i) := by
  intro c
  induction c with
  | zero => intro s i h1 h2; omega
  | succ c ih =>
    intro s i h1 h2
    by_cases hsi : s = i
    · subst hsi
      simp [idList, List.find?_cons, hg]
    · have : ((g s).id == i) = false := by
        simp [hg, hsi]
      simp only [idList, List.map_cons, List.find?_cons, this]
      exact ih (s + 1) i (by omega) (by omega)

lemma mem_updateFirst {α : Type} (pred : α → Bool) (f : α → α) :
    ∀ (l : List α) (x : α), x ∈ updateFirst pred f l →
      x ∈ l ∨ ∃ y ∈ l, pred y = true ∧ x = f y := by
  intro l
  induction l with
  | nil => intro x hx; simp [updateFirst] at hx
  | cons y ys ih =>
    intro x hx
    by_cases hy : pred y = true
    · simp only [updateFirst, if_pos hy, List.mem_cons] at hx
      rcases hx with hx | hx
      · exact Or.inr ⟨y, List.mem_cons_self y ys, hy, hx⟩
      · exact Or.inl (List.mem_cons_of_mem y hx)
    · simp only [updateFirst, if_neg hy, List.mem_cons] at hx
      rcases hx with hx | hx
      · exact Or.inl (by simp [hx])
      · rcases ih x hx with h | ⟨z, hz, hpz, hxz⟩
        · exact Or.inl (List.mem_cons_of_mem y h)
        · exact Or.inr ⟨z, List.mem_cons_of_mem y hz, hpz, hxz⟩

lemma find?_update_of_mem (o2 : Order) (i : Nat) (hid : o2.id = i) :
    ∀ (l : List Order), (∃ x ∈ l, x.id = i) →
      (l.map (fun x => if x.id == o2.id then o2 else x)).find? (fun o => o.id == i) =
        some o2 := by
  intro l
  induction l with
  | nil => rintro ⟨x, hx, -⟩; simp at hx
  | cons y ys ih =>
    rintro ⟨x, hx, hxi⟩
    by_cases hy : y.id = i
    · have h1 : (y.id == o2.id) = true := by simp [hy, hid]
      simp only [List.map_cons, if_pos h1, List.find?_cons]
      have : (o2.id == i) = true := by simp [hid]
      simp [this]
    · have h1 : (y.id == o2.id) = false := by simp [hid]; omega
      simp only [List.map_cons, if_neg (by simp [h1] : ¬(y.id == o2.id) = true),
        List.find?_cons]
      have h2 : (y.id == i) = false := by simp [hy]
      simp only [h2]
      have hx' : x ∈ ys := by
        rcases List.mem_cons.1 hx with h | h
        · exact absurd (h ▸ hxi) hy
        · exact h
      exact ih ⟨x, hx', hxi⟩

lemma find?_update_ne (o2 : Order) (j : Nat) (hne : o2.id ≠ j) :
    ∀ (l : List Order),
      (l.map (fun x => if x.id == o2.id then o2 else x)).find? (fun o => o.id == j) =
        l.find? (fun o => o.id == j) := by
  intro l
  induction l with
  | nil => simp
  | cons y ys ih =>
    by_cases hy : y.id = o2.id
    · have h1 : (y.id == o2.id) = true := by simp [hy]
      have h2 : (o2.id == j) = false := by simp [hne]
      have h3 : (y.id == j) = false := by simp [hy, hne]
      simp only [List.map_cons, if_pos h1, List.find?_cons, h2, h3]
      exact ih
    · have h1 : (y.id == o2.id) = false := by simp [hy]
      simp only [List.map_cons, if_neg (by simp [h1] : ¬(y.id == o2.id) = true),
        List.find?_cons]
      by_cases hyj : y.id = j
      · simp [hyj]
      · have : (y.id == j) = false := by simp [hyj]
        simp only [this]
        exact ih

lemma findOrder_updateOrder_of_mem (db : DB) (o2 : Order) (i : Nat)
    (hid : o2.id = i) (hex : ∃ x ∈ db.orders, x.id = i) :
    findOrder (updateOrder db o2) i = some o2 :=
  find?_update_of_mem o2 i hid db.orders hex

lemma updateOrder_twice (db : DB) (o1 o2 : Order) (h : o2.id = o1.id) :
    updateOrder (updateOrder db o1) o2 = updateOrder db o2 := by
  simp only [updateOrder, List.map_map]
  congr 1
  apply List.map_congr_left
  intro x _
  by_cases hx : x.id = o1.id
  · simp [Function.comp, hx, h]
  · simp [Function.comp, hx, h]

lemma nextOrderId_aux (l : List Order) :
    ∀ m : Nat, m ≤ l.foldl (fun m o => max m (o.id + 1)) m ∧
      ∀ o ∈ l, o.id < l.foldl (fun m o => max m (o.id + 1)) m := by
  induction l with
  | nil => intro m; simp
  | cons y ys ih =>
    intro m
    constructor
    · have := (ih (max m (y.id + 1))).1
      simp only [List.foldl_cons]
      omega
    · intro o ho
      rcases List.mem_cons.1 ho with h | h
      · have := (ih (max m (y.id + 1))).1
        simp only [List.foldl_cons]
        subst h
        omega
      · exact (ih (max m (y.id + 1))).2 o h

lemma nextOrderId_gt (db : DB) : ∀ o ∈ db.orders, o.id < nextOrderId db :=
  (nextOrderId_aux db.orders 0).2

lemma allowed_refl (a : OrderStatus) : allowedTransition a a = true := by
  simp [allowedTransition]

lemma nodup_mem_id_eq {db : DB} (hn : (db.orders.map Order.id).Nodup)
    {o o2 : Order} (ho : o ∈ db.orders) (ho2 : o2 ∈ db.orders)
    (h : o2.id = o.id) : o2 = o :=
  List.inj_on_of_nodup_map hn ho2 ho h

lemma findOrder_spec {db : DB} {i : Nat} {o : Order} (h : findOrder db i = some o) :
    o ∈ db.orders ∧ o.id = i := by
  refine ⟨List.mem_of_find?_eq_some h, ?_⟩
  have := List.find?_some h
  simpa using this

lemma markOrder_error {env : Env} {db : DB} {a : SettleArgs} {db2 : DB} {e : String}
    (h : markOrderPaidAndGrantAccess env db a = (db2, .error e)) :
    db2 = db ∧ settleTx env db a = .error e := by
  unfold markOrderPaidAndGrantAccess at h
  split at h
  · simp at h
  · rename_i heq
    refine ⟨?_, ?_⟩
    · exact (Prod.mk.injEq _ _ _ _ ▸ h).1.symm ▸ rfl
    · have h2 := (Prod.mk.injEq _ _ _ _ ▸ h).2
      rw [heq]
      cases h2
      rfl

lemma markOrder_ok {env : Env} {db : DB} {a : SettleArgs} {db2 : DB} {o : Order}
    (h : markOrderPaidAndGrantAccess env db a = (db2, .ok o)) :
    settleTx env db a = .ok (db2, o) := by
  unfold markOrderPaidAndGrantAccess at h
  split at h
  · rename_i heq
    have h1 := (Prod.mk.injEq _ _ _ _ ▸ h).1
    have h2 := (Prod.mk.injEq _ _ _ _ ▸ h).2
    rw [heq]
    cases h2
    cases h1
    rfl
  · simp at h

lemma updatePromoUsage_ok_fields {db : DB} {c : String} {db2 : DB}
    (h : updatePromoUsage db c = .ok db2) :
    db2.orders = db.orders ∧ db2.users = db.users ∧
      db2.promos = updateFirst (promoUsageGuard c)
        (fun p => { p with usedCount := p.usedCount + 1 }) db.promos := by
  unfold updatePromoUsage at h
  split at h
  · cases h
    exact ⟨rfl, rfl, rfl⟩
  · simp at h

lemma settleTx_ok_spec {env : Env} {db : DB} {a : SettleArgs} {db2 : DB} {o : Order}
    (h : settleTx env db a = .ok (db2, o)) :
    (db2 = db ∧ findOrder db a.orderId = some o ∧ o.status = OrderStatus.PAID) ∨
    (∃ order : Order, findOrder db a.orderId = some order ∧
      order.status = OrderStatus.PENDING ∧
      o = settlePaidDoc env a order ∧
      db2.orders = db.orders.map (fun x => if x.id == o.id then o else x)) := by
  unfold settleTx at h
  split at h
  · simp at h
  · rename_i order heq
    split at h
    · rename_i hp
      simp only [Except.ok.injEq, Prod.mk.injEq] at h
      obtain ⟨h1, h2⟩ := h
      subst h1; subst h2
      exact Or.inl ⟨rfl, heq, by simpa using hp⟩
    · rename_i hp
      split at h
      · simp at h
      · rename_i hpend
        have hpending : order.status = OrderStatus.PENDING := by
          simpa [bne_iff_ne] using hpend
        refine Or.inr ⟨order, heq, hpending, ?_⟩
        unfold settleCore settleGrantStep at h
        split at h
        · simp at h
        · rename_i dbx hdbx
          split at h
          · simp at h
          · rename_i user huser
            split at h
            · simp at h
            · simp only [Except.ok.injEq, Prod.mk.injEq] at h
              obtain ⟨h1, h2⟩ := h
              subst h1; subst h2
              refine ⟨rfl, ?_⟩
              unfold settlePromoStep at hdbx
              split at hdbx
              · have := (updatePromoUsage_ok_fields hdbx).1
                simpa [updateUser, updateOrder] using this
              · simp only [Except.ok.injEq] at hdbx
                subst hdbx
                rfl

lemma foldl_price_nonneg (l : List Product) (h : ∀ p ∈ l, 0 ≤ p.price) :
    ∀ init : Money, 0 ≤ init → 0 ≤ l.foldl (fun acc p => acc + p.price) init := by
  induction l with
  | nil => intro init h0; simpa using h0
  | cons q qs ih =>
    intro init h0
    simp only [List.foldl_cons]
    exact ih (fun p hp => h p (List.mem_cons_of_mem q hp)) (init + q.price)
      (by have := h q (List.mem_cons_self q qs); linarith)

lemma calculateOrderTotals_ok {products : List Product} {currency : String}
    {s t b : Money} (h : calculateOrderTotals products currency = .ok (s, t, b)) :
    s = round2 (products.foldl (fun acc p => acc + p.price) 0) ∧ t = 0 ∧ b = s := by
  unfold calculateOrderTotals at h
  split at h
  · simp at h
  · simp only [Except.ok.injEq, Prod.mk.injEq] at h
    obtain ⟨h1, h2, h3⟩ := h
    refine ⟨h1.symm, ?_, ?_⟩
    · rw [← h2, round2_zero]
    · rw [← h3, round2_zero, add_zero, round2_idem]
      exact h1

lemma round2_sub_multiples {a b : Money} (ha : ∃ n : ℤ, a = (n : ℚ) / 100)
    (hb : ∃ m : ℤ, b = (m : ℚ) / 100) : round2 (a - b) = a - b := by
  obtain ⟨n, hn⟩ := ha
  obtain ⟨m, hm⟩ := hb
  subst hn; subst hm
  have : (n : ℚ) / 100 - (m : ℚ) / 100 = ((n - m : ℤ) : ℚ) / 100 := by
    push_cast
    ring
  rw [this, round2_intDiv]

lemma applyPromoCode_ok_bounds {env : Env} {db : DB} {pc : Option String}
    {s d : Money} {c : Option String} (hs0 : 0 ≤ s)
    (hsm : ∃ n : ℤ, s = (n : ℚ) / 100)
    (h : applyPromoCode env db pc s = .ok (d, c)) :
    0 ≤ d ∧ d ≤ s ∧ ∃ m : ℤ, d = (m : ℚ) / 100 := by
  unfold applyPromoCode at h
  split at h
  · simp only [Except.ok.injEq, Prod.mk.injEq] at h
    obtain ⟨h1, -⟩ := h
    subst h1
    exact ⟨le_rfl, hs0, ⟨0, by norm_num⟩⟩
  · split at h
    · simp at h
    · rename_i promo hfind
      split at h
      · simp at h
      · split at h
        · simp at h
        · split at h
          · simp at h
          · rename_i hpos
            simp only [Except.ok.injEq, Prod.mk.injEq] at h
            obtain ⟨h1, -⟩ := h
            subst h1
            refine ⟨le_of_not_le hpos, ?_, round2_exists_int _⟩
            have hmono : promoClampedDiscount promo s ≤ round2 s :=
              round2_mono (min_le_right _ _)
            obtain ⟨n, hn⟩ := hsm
            rwa [hn, round2_intDiv, ← hn] at hmono

lemma round2_half : round2 (1/2 : ℚ) = 1/2 := by
  rw [show (1/2 : ℚ) = ((50 : ℤ) : ℚ)/100 by norm_num, round2_intDiv]

lemma lowTotal_ct : calculateOrderTotals [cheapBeat] "INR" = .ok (1/2, 0, 1/2) := by
  unfold calculateOrderTotals
  rw [show List.find? (fun p => p.currency != none && p.currency != some "INR")
    [cheapBeat] = none from rfl]
  simp only [List.foldl_cons, List.foldl_nil, round2_zero]
  rw [show ((0 : ℚ) + cheapBeat.price) = 1/2 by norm_num [cheapBeat], round2_half,
    add_zero, round2_half]

lemma orderDocValid_lowTotal : orderDocValid lowTotalOrder = true := by
  unfold orderDocValid lowTotalOrder
  simp only [List.all_cons, List.all_nil, List.isEmpty_cons, Bool.and_true,
    Bool.not_false, Bool.true_and]
  rw [decide_eq_true (by norm_num : (0:ℚ) ≤ 1/2),
      decide_eq_true (le_refl (0:ℚ))]
  simp

/-- The counterexample run shared by the C5 statements: the pipeline on
`lowTotalDb` persists `lowTotalOrder`, whose total is 0.50. -/
lemma lowTotal_run : createPendingOrderForUser env0 lowTotalDb 5 [10] "INR" none =
    .ok ({ lowTotalDb with orders := [lowTotalOrder] }, lowTotalOrder) := by
  have htot : productTotal (1/2) 0 = 1/2 := by
    unfold productTotal
    rw [sub_zero, round2_half, if_neg (by norm_num : ¬ ((1:ℚ)/2 ≤ 0))]
  have hfee : productFee (1/2) 0 = 0 := by
    unfold productFee
    rw [sub_zero, round2_half, if_neg (by norm_num : ¬ ((1:ℚ)/2 ≤ 0))]
  have hfin : productFinalTotal (1/2) 0 (1/2) 0 = 1/2 := by
    unfold productFinalTotal
    rw [hfee, add_zero, show (max 0 ((1:ℚ)/2 + 0 - 0)) = 1/2 by
      rw [max_eq_right] <;> norm_num]
    exact round2_half
  have hcond : ((1:ℚ)/100 < |(1:ℚ)/2 - 1/2|) = False := by
    apply eq_false
    norm_num
  unfold createPendingOrderForUser
  rw [show resolvePublicProducts lowTotalDb (dedupFirst [10]) = [cheapBeat] from rfl]
  rw [show ([cheapBeat].any fun p => decide (p.price < 0)) = false by
    simp only [List.any_cons, List.any_nil, Bool.or_false]
    rw [decide_eq_false (by norm_num [cheapBeat] : ¬ (cheapBeat.price < 0))]]
  rw [lowTotal_ct]
  simp only [show applyPromoCode env0 lowTotalDb none (1/2) = .ok (0, none) from rfl,
    htot, hfee, hfin, hcond, if_false]
  unfold createOrderDoc
  have hvalid : orderDocValid
      { id := nextOrderId lowTotalDb, user := 5,
        items := prepareOrderItems [cheapBeat] "INR",
        membershipPlanKey := none, membershipMonths := 1, currency := "INR",
        subtotal := 1/2, tax := 0, convenienceFee := 0, total := 1/2,
        status := OrderStatus.PENDING, cancelReason := none, promoCode := none,
        promoDiscount := 0, paymentOrderId := none, paymentId := none,
        paymentSignature := none, completedAt := none, createdAt := env0.now } = true :=
    orderDocValid_lowTotal
  rw [hvalid]
  rfl

lemma preserves_of_orders_map (db : DB) (f : Order → Order)
    (hn : (db.orders.map Order.id).Nodup)
    (hf : ∀ x ∈ db.orders, (f x).id = x.id ∧
      allowedTransition x.status (f x).status = true)
    {db2 : DB} (horders : db2.orders = db.orders.map f) :
    preservesStatusMachine db db2 := by
  intro o ho o2 ho2 hid
  rw [horders] at ho2
  obtain ⟨x, hx, hfx⟩ := List.mem_map.1 ho2
  have hxid : x.id = o.id := by rw [← (hf x hx).1, hfx, hid]
  have hxo : x = o := nodup_mem_id_eq hn ho hx hxid
  subst hxo
  rw [← hfx]
  exact (hf x hx).2

lemma preserves_of_orders_eq {db db2 : DB} (hn : (db.orders.map Order.id).Nodup)
    (h : db2.orders = db.orders) : preservesStatusMachine db db2 := by
  intro o ho o2 ho2 hid
  rw [h] at ho2
  have := nodup_mem_id_eq hn ho ho2 hid
  subst this
  exact allowed_refl _

lemma preserves_refl (db : DB) (hn : (db.orders.map Order.id).Nodup) :
    preservesStatusMachine db db :=
  preserves_of_orders_eq hn rfl

lemma preserves_updateOrder (db : DB) (onew : Order)
    (hn : (db.orders.map Order.id).Nodup)
    (hcond : ∀ x ∈ db.orders, x.id = onew.id →
      allowedTransition x.status onew.status = true) :
    preservesStatusMachine db (updateOrder db onew) := by
  apply preserves_of_orders_map db
    (fun x => if x.id == onew.id then onew else x) hn
  · intro x hx
    by_cases hb : x.id = onew.id
    · have hite : (if (x.id == onew.id) = true then onew else x) = onew := by
        simp [hb]
      rw [hite]
      exact ⟨hb.symm, hcond x hx hb⟩
    · have hite : (if (x.id == onew.id) = true then onew else x) = x := by
        simp [hb]
      rw [hite]
      exact ⟨rfl, allowed_refl _⟩
  · rfl

lemma initiateRefund_db_of_not_paid (apiOk : Bool) (db : DB) (doc : Order)
    (h : doc.status ≠ OrderStatus.PAID) :
    (initiateRefund apiOk db doc).db = db ∧
    (initiateRefund apiOk db doc).gatewayRefundCalled = false ∧
    ∃ e, (initiateRefund apiOk db doc).result = .error e := by
  unfold initiateRefund
  cases hc1 : (doc.paymentId == none) with
  | true =>
    rw [if_pos rfl]
    exact ⟨rfl, rfl, _, rfl⟩
  | false =>
    have hc2 : (doc.status != OrderStatus.PAID) = true := by
      simp [bne_iff_ne, h]
    rw [if_neg Bool.false_ne_true, hc2, if_pos rfl]
    exact ⟨rfl, rfl, _, rfl⟩

lemma initiateRefund_preserves (apiOk : Bool) (db : DB) (order : Order)
    (hn : (db.orders.map Order.id).Nodup) :
    preservesStatusMachine db (initiateRefund apiOk db order).db := by
  unfold initiateRefund
  cases hc1 : (order.paymentId == none) with
  | true =>
    rw [if_pos rfl]
    exact preserves_refl db hn
  | false =>
    rw [if_neg Bool.false_ne_true]
    cases hc2 : (order.status != OrderStatus.PAID) with
    | true =>
      rw [if_pos rfl]
      exact preserves_refl db hn
    | false =>
      rw [if_neg Bool.false_ne_true]
      rcases hfind : db.orders.find?
          (fun o => o.id == order.id && o.status == OrderStatus.PAID) with _ | locked0
      · rw [hfind]
        exact preserves_refl db hn
      · rw [hfind]
        have hprop := List.find?_some hfind
        have hmem := List.mem_of_find?_eq_some hfind
        simp only [Bool.and_eq_true, beq_iff_eq] at hprop
        have hcond : ∀ x ∈ db.orders, x.id = locked0.id →
            allowedTransition x.status OrderStatus.REFUND_INITIATED = true := by
          intro x hx hxid
          have : x = locked0 := nodup_mem_id_eq hn hmem hx hxid
          subst this
          rw [hprop.2]
          rfl
        cases apiOk with
        | true =>
          exact preserves_updateOrder db (refundLockedDoc locked0) hn
            (fun x hx hxid => hcond x hx hxid)
        | false =>
          show preservesStatusMachine db
            (updateOrder (updateOrder db (refundLockedDoc locked0))
              { refundLockedDoc locked0 with status := OrderStatus.PAID })
          rw [updateOrder_twice db (refundLockedDoc locked0)
            { refundLockedDoc locked0 with status := OrderStatus.PAID } rfl]
          apply preserves_updateOrder db _ hn
          intro x hx hxid
          have : x = locked0 := nodup_mem_id_eq hn hmem hx hxid
          subst this
          rw [hprop.2]
          rfl

lemma handleRefundEvent_preserves (db : DB) (pid : String)
    (hn : (db.orders.map Order.id).Nodup) :
    preservesStatusMachine db (handleRefundEvent db pid).1 := by
  rcases hfo : findOrderByPaymentId db pid with _ | o
  · simp only [handleRefundEvent, hfo]
    exact preserves_refl db hn
  · have hmem : o ∈ db.orders := List.mem_of_find?_eq_some hfo
    by_cases hc1 : o.status = OrderStatus.REFUNDED
    · simp only [handleRefundEvent, hfo, hc1, beq_self_eq_true, if_true]
      exact preserves_refl db hn
    · have h1 : (o.status == OrderStatus.REFUNDED) = false := by
        simp [hc1]
      by_cases hc2 : o.status = OrderStatus.PAID
      · have h2 : (o.status != OrderStatus.PAID) = false := by
          rw [hc2]
          exact bne_self_eq_false _
        simp only [handleRefundEvent, hfo, h1, h2, Bool.false_eq_true, if_false]
        apply preserves_updateOrder db _ hn
        intro x hx hxid
        have : x = o := nodup_mem_id_eq hn hmem hx hxid
        subst this
        rw [hc2]
        rfl
      · have h2 : (o.status != OrderStatus.PAID) = true := by
          simp [bne_iff_ne, hc2]
        simp only [handleRefundEvent, hfo, h1, h2, Bool.false_eq_true, if_false,
          if_true]
        exact preserves_refl db hn

lemma settle_preserves (env : Env) (db : DB) (a : SettleArgs)
    (hn : (db.orders.map Order.id).Nodup) :
    preservesStatusMachine db (markOrderPaidAndGrantAccess env db a).1 := by
  rcases hres : markOrderPaidAndGrantAccess env db a with ⟨db1, r⟩
  cases r with
  | error e =>
    have hd := (markOrder_error hres).1
    rw [hd]
    exact preserves_refl db hn
  | ok o =>
    have hs := markOrder_ok hres
    rcases settleTx_ok_spec hs with ⟨hdb, -, -⟩ | ⟨order, hfind, hpend, ho1, horders⟩
    · rw [show (db1, Except.ok o).1 = db1 from rfl, hdb]
      exact preserves_refl db hn
    · have hmem : order ∈ db.orders := (findOrder_spec hfind).1
      have hoid : o.id = order.id := by rw [ho1]; rfl
      have host : o.status = OrderStatus.PAID := by rw [ho1]; rfl
      apply preserves_of_orders_map db
        (fun x => if x.id == o.id then o else x) hn ?_ horders
      intro x hx
      by_cases hb : x.id = o.id
      · have hite : (if (x.id == o.id) = true then o else x) = o := by
          simp [hb]
        show (if (x.id == o.id) = true then o else x).id = x.id ∧
          allowedTransition x.status
            (if (x.id == o.id) = true then o else x).status = true
        rw [hite]
        refine ⟨hb.symm, ?_⟩
        have : x = order := nodup_mem_id_eq hn hmem hx (hb.trans hoid)
        subst this
        rw [hpend, host]
        rfl
      · have hite : (if (x.id == o.id) = true then o else x) = x := by
          simp [hb]
        show (if (x.id == o.id) = true then o else x).id = x.id ∧
          allowedTransition x.status
            (if (x.id == o.id) = true then o else x).status = true
        rw [hite]
        exact ⟨rfl, allowed_refl _⟩

lemma createOrderDoc_ok {db : DB} {doc : Order} {db2 : DB} {o : Order}
    (h : createOrderDoc db doc = .ok (db2, o)) :
    db2.orders = db.orders ++ [o] ∧ o = doc := by
  unfold createOrderDoc at h
  split at h
  · simp only [Except.ok.injEq, Prod.mk.injEq] at h
    obtain ⟨h1, h2⟩ := h
    subst h1; subst h2
    exact ⟨rfl, rfl⟩
  · simp at h

lemma webhookCompensate_spec (apiOk : Bool) (db1 : DB) (order : Order) :
    (webhookCompensate apiOk db1 order).db =
      updateOrder db1 (webhookFailedDoc order) ∧
    (webhookCompensate apiOk db1 order).gatewayRefundCalled = false ∧
    ∃ e, (webhookCompensate apiOk db1 order).response = .error e := by
  have hst : (webhookFailedDoc order).status ≠ OrderStatus.PAID := by
    intro hc
    exact OrderStatus.noConfusion hc
  have hd := initiateRefund_db_of_not_paid apiOk
    (updateOrder db1 (webhookFailedDoc order)) (webhookFailedDoc order) hst
  unfold webhookCompensate
  rcases hres : initiateRefund apiOk (updateOrder db1 (webhookFailedDoc order))
      (webhookFailedDoc order) with ⟨db3, r, called⟩
  rw [hres] at hd
  obtain ⟨hdb, hcalled, e, he⟩ := hd
  simp only at hdb hcalled he
  subst he
  exact ⟨hdb, hcalled, e, rfl⟩

lemma razorpayWebhook_db (env : Env) (apiOk : Bool) (db : DB)
    (event : PaymentEvent) (roid pid : String) :
    (razorpayWebhook env apiOk db event roid pid).1 =
      (handlePaymentEvent env apiOk db event roid pid).db := by
  unfold razorpayWebhook
  rcases hs : handlePaymentEvent env apiOk db event roid pid with ⟨d, resp, c⟩
  cases resp <;> rfl

lemma handlePaymentEvent_preserves (env : Env) (apiOk : Bool) (db : DB)
    (event : PaymentEvent) (roid pid : String)
    (hn : (db.orders.map Order.id).Nodup) :
    preservesStatusMachine db (handlePaymentEvent env apiOk db event roid pid).db := by
  rcases hfo : findOrderByPaymentOrderId db roid with _ | order
  · simp only [handlePaymentEvent, hfo]
    exact preserves_refl db hn
  · have hmem : order ∈ db.orders := List.mem_of_find?_eq_some hfo
    cases hc1 : (order.status == OrderStatus.PAID && event == PaymentEvent.captured) with
    | true =>
      simp only [handlePaymentEvent, hfo, hc1, if_true]
      exact preserves_refl db hn
    | false =>
      cases hc2 : (order.status == OrderStatus.CANCELLED) with
      | true =>
        simp only [handlePaymentEvent, hfo, hc1, hc2, Bool.false_eq_true, if_false,
          if_true]
        exact preserves_refl db hn
      | false =>
        cases event with
        | failed =>
          by_cases hpend : order.status = OrderStatus.PENDING
          · simp only [handlePaymentEvent, hfo, hc1, hc2, hpend, beq_self_eq_true,
              Bool.false_eq_true, if_false, if_true]
            apply preserves_updateOrder db _ hn
            intro x hx hxid
            have : x = order := nodup_mem_id_eq hn hmem hx hxid
            subst this
            rw [hpend]
            rfl
          · have h3 : (order.status == OrderStatus.PENDING) = false := by
              simp [hpend]
            simp only [handlePaymentEvent, hfo, hc1, hc2, h3, Bool.false_eq_true,
              if_false]
            exact preserves_refl db hn
        | captured =>
          cases hc3 : (order.status != OrderStatus.PENDING) with
          | true =>
            simp only [handlePaymentEvent, hfo, hc1, hc2, hc3, Bool.false_eq_true,
              if_false, if_true]
            exact preserves_refl db hn
          | false =>
            have hpend : order.status = OrderStatus.PENDING := by
              simpa [bne_iff_ne] using hc3
            rcases hsettle : markOrderPaidAndGrantAccess env db
                ⟨order.id, pid, "razorpay-webhook"⟩ with ⟨db1, r⟩
            cases r with
            | ok v =>
              simp only [handlePaymentEvent, hfo, hc1, hc2, hc3, Bool.false_eq_true,
                if_false, hsettle]
              have := settle_preserves env db ⟨order.id, pid, "razorpay-webhook"⟩ hn
              rw [hsettle] at this
              exact this
            | error e =>
              simp only [handlePaymentEvent, hfo, hc1, hc2, hc3, Bool.false_eq_true,
                if_false, hsettle]
              have hdb1 : db1 = db := (markOrder_error hsettle).1
              subst hdb1
              have hw := (webhookCompensate_spec apiOk db1 order).1
              rw [hw]
              apply preserves_updateOrder db1 _ hn
              intro x hx hxid
              have : x = order := nodup_mem_id_eq hn hmem hx hxid
              subst this
              rw [hpend]
              rfl

lemma verifyOrder_preserves (env : Env) (db : DB) (c oid : Nat)
    (roid pid sig : String) (hn : (db.orders.map Order.id).Nodup) :
    preservesStatusMachine db (verifyOrder env db c oid roid pid sig).1 := by
  rcases hu : findUser db c with _ | u
  · simp only [verifyOrder, hu]
    exact preserves_refl db hn
  · cases hdel : u.isDeleted with
    | true =>
      simp only [verifyOrder, hu, hdel, if_true]
      exact preserves_refl db hn
    | false =>
      rcases ho : findOrder db oid with _ | o
      · simp only [verifyOrder, hu, hdel, Bool.false_eq_true, if_false, ho]
        exact preserves_refl db hn
      · cases hp : (o.status == OrderStatus.PAID) with
        | true =>
          cases hpid : (o.paymentId == some pid) with
          | true =>
            simp only [verifyOrder, hu, hdel, Bool.false_eq_true, if_false, ho,
              hp, hpid, if_true]
            exact preserves_refl db hn
          | false =>
            simp only [verifyOrder, hu, hdel, Bool.false_eq_true, if_false, ho,
              hp, hpid, if_true]
            exact preserves_refl db hn
        | false =>
          cases hpend : (o.status != OrderStatus.PENDING) with
          | true =>
            simp only [verifyOrder, hu, hdel, Bool.false_eq_true, if_false, ho,
              hp, hpend, if_true]
            exact preserves_refl db hn
          | false =>
            cases hown : (o.user != c) with
            | true =>
              simp only [verifyOrder, hu, hdel, Bool.false_eq_true, if_false, ho,
                hp, hpend, hown, if_true]
              exact preserves_refl db hn
            | false =>
              cases hro : (o.paymentOrderId != some roid) with
              | true =>
                simp only [verifyOrder, hu, hdel, Bool.false_eq_true, if_false, ho,
                  hp, hpend, hown, hro, if_true]
                exact preserves_refl db hn
              | false =>
                cases hsg : (env.hmacSha256 (roid ++ "|" ++ pid) != sig) with
                | true =>
                  simp only [verifyOrder, hu, hdel, Bool.false_eq_true, if_false,
                    ho, hp, hpend, hown, hro, hsg, if_true]
                  exact preserves_refl db hn
                | false =>
                  rcases hsettle : markOrderPaidAndGrantAccess env db
                      ⟨oid, pid, sig⟩ with ⟨db1, r⟩
                  have hpres := settle_preserves env db ⟨oid, pid, sig⟩ hn
                  rw [hsettle] at hpres
                  cases r with
                  | ok v =>
                    simp only [verifyOrder, hu, hdel, Bool.false_eq_true, if_false,
                      ho, hp, hpend, hown, hro, hsg, hsettle]
                    exact hpres
                  | error e =>
                    simp only [verifyOrder, hu, hdel, Bool.false_eq_true, if_false,
                      ho, hp, hpend, hown, hro, hsg, hsettle]
                    exact hpres

lemma autoCancel_preserves (env : Env) (db : DB)
    (hn : (db.orders.map Order.id).Nodup) :
    preservesStatusMachine db (autoCancelPendingOrders env db) := by
  apply preserves_of_orders_map db (sweepOrder env) hn ?_ rfl
  intro x hx
  unfold sweepOrder
  cases hc : (x.status == OrderStatus.PENDING
      && decide (x.createdAt ≤ env.now - 120000) && (x.paymentId == none)) with
  | false =>
    rw [if_neg Bool.false_ne_true]
    exact ⟨rfl, allowed_refl _⟩
  | true =>
    rw [if_pos rfl]
    refine ⟨rfl, ?_⟩
    have hst : x.status = OrderStatus.PENDING := by
      simp only [Bool.and_eq_true, beq_iff_eq] at hc
      exact hc.1.1
    rw [hst]
    rfl

lemma createPending_ok_shape {env : Env} {db : DB} {uid : Nat} {ids : List Nat}
    {cur : String} {promo : Option String} {db2 : DB} {o : Order}
    (h : createPendingOrderForUser env db uid ids cur promo = .ok (db2, o)) :
    db2.orders = db.orders ++ [o] ∧ o.status = OrderStatus.PENDING ∧
      o.id = nextOrderId db := by
  unfold createPendingOrderForUser at h
  split at h
  · simp at h
  split at h
  · simp at h
  split at h
  · simp at h
  split at h
  · simp at h
  split at h
  · simp at h
  split at h
  · simp at h
  split at h
  · simp at h
  split at h
  · simp at h
  split at h
  · simp at h
  split at h
  · simp at h
  split at h
  · simp at h
  obtain ⟨h1, h2⟩ := createOrderDoc_ok h
  subst h2
  exact ⟨h1, rfl, rfl⟩

lemma createMembership_ok_shape {env : Env} {db : DB} {uid : Nat} {key : String}
    {months : ℤ} {cur : String} {db2 : DB} {o : Order}
    (h : createMembershipOrderForUser env db uid key months cur = .ok (db2, o)) :
    db2.orders = db.orders ++ [o] ∧ o.status = OrderStatus.PENDING ∧
      o.id = nextOrderId db := by
  unfold createMembershipOrderForUser at h
  split at h
  · simp at h
  split at h
  · simp at h
  split at h
  · simp at h
  split at h
  · simp at h
  obtain ⟨h1, h2⟩ := createOrderDoc_ok h
  subst h2
  exact ⟨h1, rfl, rfl⟩

lemma append_shape_preserves {db db2 : DB} {o : Order}
    (hshape : db2.orders = db.orders ++ [o] ∧ o.status = OrderStatus.PENDING ∧
      o.id = nextOrderId db) :
    ((db.orders.map Order.id).Nodup → preservesStatusMachine db db2) ∧
      newOrdersPending db db2 := by
  obtain ⟨horders, hst, hid⟩ := hshape
  constructor
  · intro hn o1 ho1 o2 ho2 hid2
    rw [horders] at ho2
    rcases List.mem_append.1 ho2 with h | h
    · have : o2 = o1 := nodup_mem_id_eq hn ho1 h hid2
      subst this
      exact allowed_refl _
    · have : o2 = o := by simpa using h
      subst this
      have := nextOrderId_gt db o1 ho1
      rw [hid] at hid2
      omega
  · intro o2 ho2 hnone
    rw [horders] at ho2
    rcases List.mem_append.1 ho2 with h | h
    · exact absurd rfl (hnone o2 h)
    · have : o2 = o := by simpa using h
      subst this
      exact hst

/-! ### Claim theorems -/

/-- C1: when a signature-verified payment.captured webhook hits a PENDING
order and the settlement call throws (here: the buyer is banned), the code
does force the order to FAILED with cancelReason SYSTEM_CANCELLED, but the
refund initiation throws before the gateway refund API is ever invoked (the
in-memory order has no paymentId and its status is already FAILED), and the
webhook answers 500 Internal error instead of a 200 acknowledgment.  This
evaluates the embedding at the failing input. -/
theorem webhook_delivery_failure_divergence :
    (razorpayWebhook env0 true webhookFailDb PaymentEvent.captured "rzp_1" "pay_9").2 =
      (⟨500, "Internal error"⟩, false) ∧
    ((razorpayWebhook env0 true webhookFailDb PaymentEvent.captured "rzp_1" "pay_9").1.orders.map
      (fun o => (o.id, o.status, o.cancelReason))) =
      [(1, OrderStatus.FAILED, some "SYSTEM_CANCELLED")] := by
  exact ⟨rfl, rfl⟩

/-- C7 counterexample: the refund.processed webhook moves a PAID order
directly to REFUNDED, so REFUNDED is reached from PAID, not only from
REFUND_INITIATED as the claim states. -/
theorem refunded_reached_from_paid :
    ((findOrderByPaymentId refundWebDb "pay_1").map Order.status) =
      some OrderStatus.PAID ∧
    ((findOrderByPaymentId (handleRefundEvent refundWebDb "pay_1").1 "pay_1").map
      Order.status) = some OrderStatus.REFUNDED := by
  exact ⟨rfl, rfl⟩

/-- C8 counterexample: order 3 belongs to user 5 and is PAID with payment id
pay_1; the authenticated caller 2 (not the owner) supplies that payment id
and receives the success response. -/
theorem verify_success_for_non_owner :
    ((findOrder verifyDb 3).map Order.user) = some 5 ∧
    ((findOrder verifyDb 3).map Order.status) = some OrderStatus.PAID ∧
    (verifyOrder env0 verifyDb 2 3 "rzp" "pay_1" "x").2 =
      ⟨200, true, "Order already verified via webhook"⟩ ∧
    (2 : Nat) ≠ 5 := by
  exact ⟨rfl, rfl, rfl, by decide⟩

/-- C9: one reaper sweep rewrites each order pointwise; a PENDING order at
least two minutes old with no payment id becomes CANCELLED with reason
PAYMENT_TIMEOUT (and a completion stamp), and every other order — younger,
non-PENDING, or already carrying a payment id — is left exactly as it was. -/
theorem reaper_sweep_exact (env : Env) (db : DB) (o : Order) (ho : o ∈ db.orders) :
    (autoCancelPendingOrders env db).orders = db.orders.map (sweepOrder env) ∧
    (o.status = OrderStatus.PENDING → o.createdAt ≤ env.now - 120000 →
      o.paymentId = none →
      sweepOrder env o =
        { o with
            status := OrderStatus.CANCELLED,
            cancelReason := some "PAYMENT_TIMEOUT",
            completedAt := some env.now }) ∧
    ((o.status ≠ OrderStatus.PENDING ∨ env.now - 120000 < o.createdAt ∨
        o.paymentId ≠ none) →
      sweepOrder env o = o) := by
  refine ⟨rfl, ?_, ?_⟩
  · intro h1 h2 h3
    simp [sweepOrder, h1, h2, h3]
  · intro h
    rcases h with h | h | h
    · simp [sweepOrder, h]
    · have : ¬ o.createdAt ≤ env.now - 120000 := not_le.2 h
      simp [sweepOrder, this]
    · simp [sweepOrder, h]

/-- C9 witness: evaluating the reaper theorem on the three-order fixture —
the stale unstamped order is cancelled, the fresh one is untouched. -/
theorem reaper_sweep_exact_witness :
    sweepOrder env0 staleOrder =
      { staleOrder with
          status := OrderStatus.CANCELLED,
          cancelReason := some "PAYMENT_TIMEOUT",
          completedAt := some env0.now } ∧
    sweepOrder env0 freshOrder = freshOrder ∧
    sweepOrder env0 stampedOrder = stampedOrder := by
  refine ⟨?_, ?_, ?_⟩
  · exact (reaper_sweep_exact env0 reaperDb staleOrder (by decide)).2.1
      rfl (by decide) rfl
  · exact (reaper_sweep_exact env0 reaperDb freshOrder (by decide)).2.2
      (Or.inr (Or.inl (by decide)))
  · exact (reaper_sweep_exact env0 reaperDb stampedOrder (by decide)).2.2
      (Or.inr (Or.inr (by decide)))

/-- C5 counterexample: a single public product priced 0.50 — the computed
total 0.50 is positive, so the convenience-fee branch does not fire, and the
PENDING order is persisted with total 0.50, below 1. -/
theorem product_order_total_below_one :
    createPendingOrderForUser env0 lowTotalDb 5 [10] "INR" none =
      .ok ({ lowTotalDb with orders := [lowTotalOrder] }, lowTotalOrder) ∧
    lowTotalOrder.total = 1/2 ∧ lowTotalOrder.total < 1 ∧
    lowTotalOrder.convenienceFee = 0 ∧
    lowTotalOrder.status = OrderStatus.PENDING := by
  refine ⟨lowTotal_run, rfl, by norm_num [lowTotalOrder], rfl, rfl⟩

/-- C5 amended: every order persisted by the two creators satisfies the
round-trip `subtotal + tax - discount + convenienceFee = total` exactly
(hence within the 0.01 tolerance), with the discount clamped to
`[0, subtotal]`; on the product path the convenience fee forces total 1
exactly when `subtotal + tax - discount ≤ 0`, and the persisted total is
always positive — but it can be below 1 (see the counterexample), which is
the only part of the claim the code does not satisfy. -/
theorem order_creation_amount_invariants :
    (∀ (env : Env) (db : DB) (userId : Nat) (ids : List Nat) (currency : String)
        (promo : Option String) (db2 : DB) (o : Order),
      createPendingOrderForUser env db userId ids currency promo = .ok (db2, o) →
      o.subtotal + o.tax - o.promoDiscount + o.convenienceFee = o.total ∧
      |o.subtotal + o.tax - o.promoDiscount + o.convenienceFee - o.total| < 1/100 ∧
      0 ≤ o.promoDiscount ∧ o.promoDiscount ≤ o.subtotal ∧
      0 < o.total ∧
      (o.subtotal + o.tax - o.promoDiscount ≤ 0 →
        o.convenienceFee = 1 ∧ o.total = 1)) ∧
    (∀ (env : Env) (db : DB) (userId : Nat) (planKey : String) (months : ℤ)
        (currency : String) (db2 : DB) (o : Order),
      createMembershipOrderForUser env db userId planKey months currency = .ok (db2, o) →
      o.subtotal + o.tax - o.promoDiscount + o.convenienceFee = o.total ∧
      |o.subtotal + o.tax - o.promoDiscount + o.convenienceFee - o.total| < 1/100 ∧
      0 ≤ o.promoDiscount ∧ o.promoDiscount ≤ o.subtotal) := by
  constructor
  · intro env db userId ids currency promo db2 o h
    unfold createPendingOrderForUser at h
    split at h
    · simp at h
    split at h
    · simp at h
    split at h
    · simp at h
    rename_i user huser
    split at h
    · simp at h
    split at h
    · simp at h
    split at h
    · simp at h
    split at h
    · simp at h
    split at h
    · simp at h
    rename_i hprices
    split at h
    · simp at h
    rename_i subtotal tax baseTotal hct
    split at h
    · simp at h
    rename_i discount code hap
    split at h
    · simp at h
    unfold createOrderDoc at h
    split at h
    · simp only [Except.ok.injEq, Prod.mk.injEq] at h
      obtain ⟨-, h2⟩ := h
      subst h2
      obtain ⟨hs_eq, ht0, hbs⟩ := calculateOrderTotals_ok hct
      have hall : ∀ p ∈ resolvePublicProducts db (dedupFirst ids), 0 ≤ p.price := by
        intro p hp
        by_contra hneg
        exact hprices (List.any_eq_true.2 ⟨p, hp, by
          simp [decide_eq_true_eq, lt_of_not_le hneg]⟩)
      have hs0 : 0 ≤ subtotal := by
        rw [hs_eq]
        exact round2_nonneg (foldl_price_nonneg _ hall 0 le_rfl)
      have hsm : ∃ n : ℤ, subtotal = (n : ℚ) / 100 := hs_eq ▸ round2_exists_int _
      obtain ⟨hd0, hds, hdm⟩ := applyPromoCode_ok_bounds hs0 hsm hap
      have ht0eq : round2 (baseTotal - discount) = subtotal - discount := by
        rw [hbs]
        exact round2_sub_multiples hsm hdm
      subst ht0
      by_cases hle : round2 (baseTotal - discount) ≤ 0
      · have hzero : subtotal - discount = 0 :=
          le_antisymm (ht0eq ▸ hle) (by linarith)
        have hfee : productFee baseTotal discount = 1 := by
          simp [productFee, hle]
        have htot : productTotal baseTotal discount = 1 := by
          simp [productTotal, hle]
        simp only [hfee, htot]
        refine ⟨by linarith, by rw [abs_lt]; constructor <;> linarith, hd0, hds,
          by norm_num, by intro _; exact ⟨by simp, by simp⟩⟩
      · have hpos : 0 < subtotal - discount := by
          rw [← ht0eq]
          exact lt_of_not_le hle
        have hfee : productFee baseTotal discount = 0 := by
          simp [productFee, hle]
        have htot : productTotal baseTotal discount = subtotal - discount := by
          simp only [productTotal, if_neg hle]
          exact ht0eq
        simp only [hfee, htot]
        refine ⟨by ring, by rw [abs_lt]; constructor <;> linarith, hd0, hds,
          hpos, fun habs => absurd habs (by push_neg; linarith)⟩
    · simp at h
  · intro env db userId planKey months currency db2 o h
    unfold createMembershipOrderForUser at h
    split at h
    · simp at h
    rename_i user huser
    split at h
    · simp at h
    split at h
    · simp at h
    split at h
    · simp at h
    rename_i plan hplan
    unfold createOrderDoc at h
    split at h
    · rename_i hvalid
      simp only [Except.ok.injEq, Prod.mk.injEq] at h
      obtain ⟨-, h2⟩ := h
      subst h2
      have hsub0 : (0 : ℚ) ≤ round2 (plan.price * (max 1 (min months 12) : ℤ)) := by
        simp only [orderDocValid, Bool.and_eq_true, decide_eq_true_eq] at hvalid
        exact hvalid.1.1.1.1.1.1
      have htot : round2 (round2 (plan.price * (max 1 (min months 12) : ℤ)) + 0) =
          round2 (plan.price * (max 1 (min months 12) : ℤ)) := by
        rw [add_zero, round2_idem]
      refine ⟨?_, ?_, le_rfl, hsub0⟩
      · simp only [htot]
        ring
      · simp only [htot]
        rw [show round2 (plan.price * (max 1 (min months 12) : ℤ)) + 0 - 0 + 0 -
            round2 (plan.price * (max 1 (min months 12) : ℤ)) = 0 by ring]
        norm_num
    · simp at h

/-- C5 witness: the amended invariants evaluated on the counterexample
fixture itself — the 0.50-total order satisfies the round-trip equality,
the clamp, and positivity. -/
theorem order_creation_amount_invariants_witness :
    lowTotalOrder.subtotal + lowTotalOrder.tax - lowTotalOrder.promoDiscount +
        lowTotalOrder.convenienceFee = lowTotalOrder.total ∧
    |lowTotalOrder.subtotal + lowTotalOrder.tax - lowTotalOrder.promoDiscount +
        lowTotalOrder.convenienceFee - lowTotalOrder.total| < 1/100 ∧
    0 ≤ lowTotalOrder.promoDiscount ∧
    lowTotalOrder.promoDiscount ≤ lowTotalOrder.subtotal ∧
    0 < lowTotalOrder.total ∧
    (lowTotalOrder.subtotal + lowTotalOrder.tax - lowTotalOrder.promoDiscount ≤ 0 →
      lowTotalOrder.convenienceFee = 1 ∧ lowTotalOrder.total = 1) :=
  order_creation_amount_invariants.1 env0 lowTotalDb 5 [10] "INR" none
    { lowTotalDb with orders := [lowTotalOrder] } lowTotalOrder lowTotal_run

/-- C3: settlement is atomic — whenever `markOrderPaidAndGrantAccess`
returns an error, the transaction has been aborted: the store (orders with
their status and payment fields, promo used counts, users with their
purchased products and membership) is exactly the one before the call, and
the error is propagated to the caller. -/
theorem settlement_error_rolls_back (env : Env) (db : DB) (a : SettleArgs)
    (db2 : DB) (e : String)
    (h : markOrderPaidAndGrantAccess env db a = (db2, .error e)) :
    db2 = db ∧ db2.orders = db.orders ∧ db2.users = db.users ∧
    db2.promos = db.promos ∧
    markOrderPaidAndGrantAccess env db a = (db, .error e) := by
  obtain ⟨h1, -⟩ := markOrder_error h
  subst h1
  exact ⟨rfl, rfl, rfl, rfl, h⟩

/-- C3 witness: settling a CANCELLED order throws the status-gate error and
leaves the store untouched. -/
theorem settlement_error_rolls_back_witness :
    markOrderPaidAndGrantAccess env0 cancelledDb ⟨1, "pay_x", "sig_x"⟩ =
      (cancelledDb, .error "Cannot process order with this status") :=
  (settlement_error_rolls_back env0 cancelledDb ⟨1, "pay_x", "sig_x"⟩ cancelledDb
    "Cannot process order with this status" (by rfl)).2.2.2.2

/-- C2: settlement is idempotent — a call on an already-PAID order returns
the existing order with no state change; any sequence of settlement calls on
that order leaves the store exactly as it is (so nothing is re-credited and
membership is not re-extended); and every successful settlement call leaves
its order PAID, so across any sequence of calls on one order at most one
PENDING-to-PAID transition can occur. -/
theorem settlement_idempotent (env : Env) (db : DB) (i : Nat) (o : Order)
    (h : findOrder db i = some o) (hp : o.status = OrderStatus.PAID) :
    (∀ a : SettleArgs, a.orderId = i →
      markOrderPaidAndGrantAccess env db a = (db, .ok o)) ∧
    (∀ calls : List SettleArgs, (∀ c ∈ calls, c.orderId = i) →
      runSettleSeq env db calls = db) ∧
    (∀ (db0 : DB) (a : SettleArgs) (db1 : DB) (o1 : Order),
      markOrderPaidAndGrantAccess env db0 a = (db1, .ok o1) →
      (findOrder db1 a.orderId).map Order.status = some OrderStatus.PAID) := by
  have hpart1 : ∀ a : SettleArgs, a.orderId = i →
      markOrderPaidAndGrantAccess env db a = (db, .ok o) := by
    intro a ha
    subst ha
    simp [markOrderPaidAndGrantAccess, settleTx, h, hp]
  refine ⟨hpart1, ?_, ?_⟩
  · intro calls
    induction calls with
    | nil => intro _; rfl
    | cons c cs ih =>
      intro hcalls
      have hstep := hpart1 c (hcalls c (List.mem_cons_self c cs))
      show runSettleSeq env ((markOrderPaidAndGrantAccess env db c).1) cs = db
      rw [hstep]
      exact ih (fun x hx => hcalls x (List.mem_cons_of_mem c hx))
  · intro db0 a db1 o1 h1
    have hs := markOrder_ok h1
    rcases settleTx_ok_spec hs with ⟨hdb, hfind, hst⟩ | ⟨order, hfind, hpend, ho1, horders⟩
    · subst hdb
      rw [hfind]
      simp [hst]
    · have hid : order.id = a.orderId := (findOrder_spec hfind).2
      have hmem : order ∈ db0.orders := (findOrder_spec hfind).1
      have ho1id : o1.id = a.orderId := by
        rw [ho1, settlePaidDoc]
        exact hid
      have : findOrder db1 a.orderId = some o1 := by
        unfold findOrder
        rw [horders]
        exact find?_update_of_mem o1 a.orderId ho1id db0.orders ⟨order, hmem, hid⟩
      rw [this]
      have : o1.status = OrderStatus.PAID := by
        rw [ho1, settlePaidDoc]
      simp [this]

/-- C2 witness: a second settlement call on the PAID order of `paidDb`
returns the stored order and does not change the store. -/
theorem settlement_idempotent_witness :
    markOrderPaidAndGrantAccess env0 paidDb ⟨1, "pay_2", "sig_2"⟩ =
      (paidDb, .ok (limitPaidOrder env0 "pay_1" "sig_1" 1)) :=
  (settlement_idempotent env0 paidDb 1 (limitPaidOrder env0 "pay_1" "sig_1" 1)
    rfl rfl).1 ⟨1, "pay_2", "sig_2"⟩ rfl

/-- C6: settling a membership order for a user whose current membership has
the same plan key, status ACTIVE and a future expiry extends the expiry from
the current expiry by the order's months, preserving `startedAt` and the
monthly usage counters; in every other case the membership starts at now,
expires `membershipMonths` later, and the usage counters reset to zero. -/
theorem membership_renewal_spec (env : Env) (order : Order) (user : User)
    (k : String) (hk : order.membershipPlanKey = some k)
    (hm : order.membershipMonths ≠ 0) :
    (∀ e : Timestamp, user.membership.expiresAt = some e →
      user.membership.status = "ACTIVE" → user.membership.planKey = some k →
      env.now < e →
      (activateMembership env order user).membership =
        { planKey := some k, status := "ACTIVE",
          startedAt := user.membership.startedAt,
          expiresAt := some (env.addMonths e order.membershipMonths) } ∧
      (activateMembership env order user).membershipUsage =
        user.membershipUsage) ∧
    (¬ (user.membership.status = "ACTIVE" ∧ user.membership.planKey = some k ∧
        ∃ e : Timestamp, user.membership.expiresAt = some e ∧ env.now < e) →
      (activateMembership env order user).membership =
        { planKey := some k, status := "ACTIVE",
          startedAt := some env.now,
          expiresAt := some (env.addMonths env.now order.membershipMonths) } ∧
      (activateMembership env order user).membershipUsage =
        { periodStart := some env.now, downloadsUsed := 0,
          remixRequestsUsed := 0 }) := by
  constructor
  · intro e he hst hpk hlt
    unfold activateMembership
    simp [he, hst, hpk, hk, hlt, hm]
  · intro hneg
    rcases hexp : user.membership.expiresAt with _ | e
    · unfold activateMembership
      simp [hexp, hk, hm]
    · by_cases hst : user.membership.status = "ACTIVE"
      · by_cases hpk : user.membership.planKey = some k
        · have hnlt : ¬ env.now < e := fun hlt => hneg ⟨hst, hpk, e, hexp, hlt⟩
          unfold activateMembership
          simp [hexp, hst, hpk, hk, hnlt, hm]
        · unfold activateMembership
          simp [hexp, hst, hk, hm, hpk]
      · unfold activateMembership
        simp [hexp, hst, hk, hm]

/-- C6 witness: the renewing user keeps `startedAt` and the usage window and
gets the expiry extended from the current expiry; a user without an active
membership starts fresh. -/
theorem membership_renewal_spec_witness :
    (activateMembership env0 renewalOrder renewalUser).membership =
      { planKey := some "PRO", status := "ACTIVE",
        startedAt := renewalUser.membership.startedAt,
        expiresAt := some (env0.addMonths 1000 renewalOrder.membershipMonths) } ∧
    (activateMembership env0 renewalOrder renewalUser).membershipUsage =
      renewalUser.membershipUsage :=
  (membership_renewal_spec env0 renewalOrder renewalUser "PRO" rfl
    (by decide)).1 1000 rfl rfl rfl (by decide)

/-- C10: a successful `initiateRefund` leaves the stored order in status
REFUND_INITIATED (never REFUNDED); the refund.processed webhook does not
modify the store when the matched order is not PAID; in particular an order
sitting in REFUND_INITIATED is never advanced to REFUNDED by the webhook. -/
theorem refund_lock_never_completed_by_webhook :
    (∀ (apiOk : Bool) (db : DB) (order : Order) (u : Unit),
      (initiateRefund apiOk db order).result = .ok u →
      (findOrder (initiateRefund apiOk db order).db order.id).map Order.status =
        some OrderStatus.REFUND_INITIATED) ∧
    (∀ (db : DB) (pid : String) (o : Order),
      findOrderByPaymentId db pid = some o → o.status ≠ OrderStatus.PAID →
      (handleRefundEvent db pid).1 = db) ∧
    (∀ (db : DB) (pid : String) (o : Order),
      findOrderByPaymentId db pid = some o →
      o.status = OrderStatus.REFUND_INITIATED →
      handleRefundEvent db pid = (db, ⟨200, "Refund ignored"⟩)) := by
  refine ⟨?_, ?_, ?_⟩
  · intro apiOk db order u h
    cases hc1 : (order.paymentId == none) with
    | true =>
      simp only [initiateRefund, hc1] at h
      simp at h
    | false =>
      cases hc2 : (order.status != OrderStatus.PAID) with
      | true =>
        simp only [initiateRefund, hc1, hc2] at h
        simp at h
      | false =>
        rcases hfind : db.orders.find?
            (fun o => o.id == order.id && o.status == OrderStatus.PAID) with _ | locked0
        · simp only [initiateRefund, hc1, hc2, hfind] at h
          simp at h
        · have hprop := List.find?_some hfind
          have hmem := List.mem_of_find?_eq_some hfind
          simp only [Bool.and_eq_true, beq_iff_eq] at hprop
          cases apiOk with
          | false =>
            simp only [initiateRefund, hc1, hc2, hfind] at h
            simp at h
          | true =>
            simp only [initiateRefund, hc1, hc2, hfind, Bool.false_eq_true,
              if_false, if_true]
            have hid : (refundLockedDoc locked0).id = order.id := hprop.1
            rw [findOrder_updateOrder_of_mem db (refundLockedDoc locked0) order.id
              hid ⟨locked0, hmem, hprop.1⟩]
            rfl
  · intro db pid o hfo hst
    by_cases h1 : o.status = OrderStatus.REFUNDED
    · simp [handleRefundEvent, hfo, h1]
    · have h2 : (o.status != OrderStatus.PAID) = true := by
        simp [bne_iff_ne, hst]
      simp [handleRefundEvent, hfo, h1, h2]
  · intro db pid o hfo hst
    have h1 : o.status ≠ OrderStatus.REFUNDED := by
      rw [hst]
      intro hc
      exact OrderStatus.noConfusion hc
    have h2 : (o.status != OrderStatus.PAID) = true := by
      rw [hst]
      decide
    simp [handleRefundEvent, hfo, h1, h2]

/-- C10 witness: initiating a refund on the PAID order of `paidDb` leaves it
REFUND_INITIATED, and the refund webhook ignores the REFUND_INITIATED order
of `lockedDb`. -/
theorem refund_lock_never_completed_by_webhook_witness :
    (findOrder (initiateRefund true paidDb
        (limitPaidOrder env0 "pay_1" "sig_1" 1)).db 1).map Order.status =
      some OrderStatus.REFUND_INITIATED ∧
    handleRefundEvent lockedDb "pay_1" = (lockedDb, ⟨200, "Refund ignored"⟩) :=
  ⟨refund_lock_never_completed_by_webhook.1 true paidDb
      (limitPaidOrder env0 "pay_1" "sig_1" 1) () rfl,
    refund_lock_never_completed_by_webhook.2.2 lockedDb "pay_1"
      { limitPaidOrder env0 "pay_1" "sig_1" 1 with
          status := OrderStatus.REFUND_INITIATED } rfl rfl⟩

/-- C8 amended: the client-verify endpoint never settles or mutates state
for a caller who is not the order's owner — the store is returned unchanged;
the only success response a non-owner can obtain is the idempotent
already-PAID-with-matching-payment-id short circuit (which performs no state
change and grants nothing); and on a PENDING order a non-owner is always
rejected with 403 Not your order. -/
theorem verify_owner_guard (env : Env) (db : DB) (callerId orderId : Nat)
    (roid pid sig : String) (u : User) (o : Order)
    (hu : findUser db callerId = some u) (hdel : u.isDeleted = false)
    (ho : findOrder db orderId = some o) (hown : o.user ≠ callerId) :
    (verifyOrder env db callerId orderId roid pid sig).1 = db ∧
    ((verifyOrder env db callerId orderId roid pid sig).2.success = true →
      o.status = OrderStatus.PAID ∧ o.paymentId = some pid) ∧
    (o.status = OrderStatus.PENDING →
      verifyOrder env db callerId orderId roid pid sig =
        (db, ⟨403, false, "Not your order"⟩)) := by
  by_cases hp : o.status = OrderStatus.PAID
  · by_cases hpid : o.paymentId = some pid
    · have hv : verifyOrder env db callerId orderId roid pid sig =
          (db, ⟨200, true, "Order already verified via webhook"⟩) := by
        simp [verifyOrder, hu, hdel, ho, hp, hpid]
      rw [hv]
      exact ⟨rfl, fun _ => ⟨hp, hpid⟩,
        fun hpend => absurd (hp.symm.trans hpend) (by decide)⟩
    · have hv : verifyOrder env db callerId orderId roid pid sig =
          (db, ⟨400, false, "Order already paid with a different payment ID"⟩) := by
        simp [verifyOrder, hu, hdel, ho, hp, hpid]
      rw [hv]
      exact ⟨rfl, by simp, fun hpend => absurd (hp.symm.trans hpend) (by decide)⟩
  · by_cases hpend : o.status = OrderStatus.PENDING
    · have hown2 : (o.user != callerId) = true := by
        simp [bne_iff_ne, hown]
      have hv : verifyOrder env db callerId orderId roid pid sig =
          (db, ⟨403, false, "Not your order"⟩) := by
        simp [verifyOrder, hu, hdel, ho, hp, hpend, hown2]
      rw [hv]
      exact ⟨rfl, by simp, fun _ => rfl⟩
    · have h2 : (o.status != OrderStatus.PENDING) = true := by
        simp [bne_iff_ne, hpend]
      have hv : verifyOrder env db callerId orderId roid pid sig =
          (db, ⟨400, false, "Order cannot be paid"⟩) := by
        simp [verifyOrder, hu, hdel, ho, hp, h2]
      rw [hv]
      exact ⟨rfl, by simp, fun hc => absurd hc hpend⟩

/-- C8 witness: the owner guard evaluated for caller 2 on order 3 (owned by
user 5) of `verifyDb` — the store is unchanged and a success implies the
order was already PAID under the supplied payment id. -/
theorem verify_owner_guard_witness :
    (verifyOrder env0 verifyDb 2 3 "rzp" "pay_1" "x").1 = verifyDb ∧
    ((verifyOrder env0 verifyDb 2 3 "rzp" "pay_1" "x").2.success = true →
      (limitPaidOrder env0 "pay_1" "sig_1" 3).status = OrderStatus.PAID ∧
      (limitPaidOrder env0 "pay_1" "sig_1" 3).paymentId = some "pay_1") ∧
    ((limitPaidOrder env0 "pay_1" "sig_1" 3).status = OrderStatus.PENDING →
      verifyOrder env0 verifyDb 2 3 "rzp" "pay_1" "x" =
        (verifyDb, ⟨403, false, "Not your order"⟩)) :=
  verify_owner_guard env0 verifyDb 2 3 "rzp" "pay_1" "x" otherUser
    (limitPaidOrder env0 "pay_1" "sig_1" 3) rfl rfl rfl (by decide)

/-- C7 amended: over a store with unique order ids, every modeled operation
moves each order along the machine PENDING to PAID, FAILED or CANCELLED,
PAID to REFUND_INITIATED (refund pre-lock), REFUND_INITIATED back to PAID
(refund-API-failure rollback), and PAID directly to REFUNDED (the refund
webhook — not via REFUND_INITIATED, which is where the code differs from the
claim); CANCELLED, FAILED and REFUNDED are never left; and the two creators
only append orders whose status is PENDING, the sole initial state. -/
theorem order_status_machine :
    (∀ (env : Env) (db : DB) (a : SettleArgs), (db.orders.map Order.id).Nodup →
      preservesStatusMachine db (markOrderPaidAndGrantAccess env db a).1) ∧
    (∀ (apiOk : Bool) (db : DB) (order : Order), (db.orders.map Order.id).Nodup →
      preservesStatusMachine db (initiateRefund apiOk db order).db) ∧
    (∀ (db : DB) (pid : String), (db.orders.map Order.id).Nodup →
      preservesStatusMachine db (handleRefundEvent db pid).1) ∧
    (∀ (env : Env) (apiOk : Bool) (db : DB) (event : PaymentEvent)
        (roid pid : String), (db.orders.map Order.id).Nodup →
      preservesStatusMachine db (razorpayWebhook env apiOk db event roid pid).1) ∧
    (∀ (env : Env) (db : DB) (c oid : Nat) (roid pid sig : String),
      (db.orders.map Order.id).Nodup →
      preservesStatusMachine db (verifyOrder env db c oid roid pid sig).1) ∧
    (∀ (env : Env) (db : DB), (db.orders.map Order.id).Nodup →
      preservesStatusMachine db (autoCancelPendingOrders env db)) ∧
    (∀ (env : Env) (db : DB) (uid : Nat) (ids : List Nat) (cur : String)
        (promo : Option String) (db2 : DB) (o : Order),
      createPendingOrderForUser env db uid ids cur promo = .ok (db2, o) →
      ((db.orders.map Order.id).Nodup → preservesStatusMachine db db2) ∧
        newOrdersPending db db2) ∧
    (∀ (env : Env) (db : DB) (uid : Nat) (key : String) (months : ℤ)
        (cur : String) (db2 : DB) (o : Order),
      createMembershipOrderForUser env db uid key months cur = .ok (db2, o) →
      ((db.orders.map Order.id).Nodup → preservesStatusMachine db db2) ∧
        newOrdersPending db db2) := by
  refine ⟨fun env db a hn => settle_preserves env db a hn,
    fun apiOk db order hn => initiateRefund_preserves apiOk db order hn,
    fun db pid hn => handleRefundEvent_preserves db pid hn,
    fun env apiOk db event roid pid hn => ?_,
    fun env db c oid roid pid sig hn =>
      verifyOrder_preserves env db c oid roid pid sig hn,
    fun env db hn => autoCancel_preserves env db hn,
    fun env db uid ids cur promo db2 o h =>
      append_shape_preserves (createPending_ok_shape h),
    fun env db uid key months cur db2 o h =>
      append_shape_preserves (createMembership_ok_shape h)⟩
  rw [razorpayWebhook_db]
  exact handlePaymentEvent_preserves env apiOk db event roid pid hn

/-- C7 witness: the status machine evaluated on the refund-webhook fixture
(a PAID order moved to REFUNDED) and on one reaper sweep over the
three-order fixture. -/
theorem order_status_machine_witness :
    preservesStatusMachine refundWebDb (handleRefundEvent refundWebDb "pay_1").1 ∧
    preservesStatusMachine reaperDb (autoCancelPendingOrders env0 reaperDb) :=
  ⟨order_status_machine.2.2.1 refundWebDb "pay_1" (by decide),
    order_status_machine.2.2.2.2.2.1 env0 reaperDb (by decide)⟩


lemma limitPendingOrder_id (j : Nat) : (limitPendingOrder j).id = j := rfl

lemma limitPaidOrder_id (env : Env) (pid sig : String) (j : Nat) :
    (limitPaidOrder env pid sig j).id = j := rfl

lemma settlePaid_limit (env : Env) (pid sig : String) (k : Nat) :
    settlePaidDoc env ⟨k, pid, sig⟩ (limitPendingOrder k) =
      limitPaidOrder env pid sig k := rfl

lemma limitPromo_succ (N k : Nat) :
    ({ limitPromo N k with usedCount := (limitPromo N k).usedCount + 1 } : PromoCode) =
      limitPromo N (k + 1) := by
  simp only [limitPromo, PromoCode.mk.injEq, and_true, true_and]
  push_cast
  ring

lemma findOrder_limitDb (env : Env) (pid sig : String) (N k j : Nat)
    (h1 : 1 ≤ j) (h2 : j ≤ N + 1) :
    findOrder (limitDb env pid sig N k) j =
      some (if j ≤ k then limitPaidOrder env pid sig j else limitPendingOrder j) := by
  unfold findOrder limitDb
  exact find?_map_idList
    (fun j => if j ≤ k then limitPaidOrder env pid sig j else limitPendingOrder j)
    (fun i => by
      show (if i ≤ k then limitPaidOrder env pid sig i else limitPendingOrder i).id = i
      by_cases h : i ≤ k
      · rw [if_pos h]; exact limitPaidOrder_id env pid sig i
      · rw [if_neg h]; exact limitPendingOrder_id i)
    (N+1) 1 j h1 (by omega)

lemma limitOrders_step (env : Env) (pid sig : String) (N k : Nat) :
    ((idList 1 (N+1)).map
        (fun j => if j ≤ k then limitPaidOrder env pid sig j else limitPendingOrder j)).map
      (fun x => if x.id == (limitPaidOrder env pid sig (k+1)).id
        then limitPaidOrder env pid sig (k+1) else x) =
    (idList 1 (N+1)).map
      (fun j => if j ≤ k + 1 then limitPaidOrder env pid sig j else limitPendingOrder j) := by
  rw [List.map_map]
  apply List.map_congr_left
  intro j hj
  simp only [Function.comp]
  by_cases h1 : j ≤ k
  · have hne : j ≠ k + 1 := by omega
    rw [if_pos h1]
    have hb : ((limitPaidOrder env pid sig j).id ==
        (limitPaidOrder env pid sig (k+1)).id) = false := by
      simp [limitPaidOrder_id, hne]
    rw [if_neg (by simp [hb]), if_pos (by omega : j ≤ k + 1)]
  · by_cases h2 : j = k + 1
    · subst h2
      rw [if_neg h1]
      have hb : ((limitPendingOrder (k+1)).id ==
          (limitPaidOrder env pid sig (k+1)).id) = true := by
        simp [limitPaidOrder_id, limitPendingOrder_id]
      rw [if_pos hb, if_pos (le_refl (k+1))]
    · rw [if_neg h1]
      have hb : ((limitPendingOrder j).id ==
          (limitPaidOrder env pid sig (k+1)).id) = false := by
        simp [limitPaidOrder_id, limitPendingOrder_id, h2]
      rw [if_neg (by simp [hb]), if_neg (by omega : ¬ j ≤ k + 1)]

lemma updatePromoUsage_limit_ok (N k : Nat) (hk : k < N) :
    ∀ db1 : DB, db1.promos = [limitPromo N k] →
      updatePromoUsage db1 "LIMITED" =
        .ok { db1 with promos := [limitPromo N (k+1)] } := by
  intro db1 hp
  have hguard : promoUsageGuard "LIMITED" (limitPromo N k) = true := by
    unfold promoUsageGuard limitPromo
    have : ((k : ℤ) < (N : ℤ)) := by exact_mod_cast hk
    simp [this]
  unfold updatePromoUsage
  rw [hp]
  rw [show ([limitPromo N k].any (promoUsageGuard "LIMITED")) = true by
    simp [List.any_cons, hguard]]
  rw [if_pos rfl]
  congr 1
  rw [show updateFirst (promoUsageGuard "LIMITED")
      (fun p => { p with usedCount := p.usedCount + 1 }) [limitPromo N k] =
      [{ limitPromo N k with usedCount := (limitPromo N k).usedCount + 1 }] by
    unfold updateFirst
    rw [if_pos hguard]]
  rw [limitPromo_succ]

lemma limit_core (env : Env) (pid sig : String) (N k : Nat) (hk : k < N) :
    settleCore env (limitDb env pid sig N k) ⟨k+1, pid, sig⟩ (limitPendingOrder (k+1)) =
      .ok (limitDb env pid sig N (k+1), limitPaidOrder env pid sig (k+1)) := by
  unfold settleCore
  rw [settlePaid_limit]
  have hps : settlePromoStep
      (updateOrder (limitDb env pid sig N k) (limitPaidOrder env pid sig (k+1)))
      (limitPaidOrder env pid sig (k+1)) =
      .ok { updateOrder (limitDb env pid sig N k) (limitPaidOrder env pid sig (k+1)) with
        promos := [limitPromo N (k+1)] } := by
    unfold settlePromoStep
    exact updatePromoUsage_limit_ok N k hk _ rfl
  unfold settleGrantStep
  rw [hps]
  exact congrArg
    (fun l => (Except.ok
      (({ orders := l, users := [limitBuyer], promos := [limitPromo N (k+1)],
          products := [], plans := [] } : DB),
        limitPaidOrder env pid sig (k+1)) : Except String (DB × Order)))
    (limitOrders_step env pid sig N k)



lemma limit_settleTx_success (env : Env) (pid sig : String) (N k : Nat) (hk : k < N) :
    settleTx env (limitDb env pid sig N k) ⟨k+1, pid, sig⟩ =
      .ok (limitDb env pid sig N (k+1), limitPaidOrder env pid sig (k+1)) := by
  unfold settleTx
  rw [show (⟨k+1, pid, sig⟩ : SettleArgs).orderId = k + 1 from rfl,
      findOrder_limitDb env pid sig N k (k+1) (by omega) (by omega),
      if_neg (by omega : ¬ k + 1 ≤ k)]
  exact limit_core env pid sig N k hk

lemma limit_step_success (env : Env) (pid sig : String) (N k : Nat) (hk : k < N) :
    markOrderPaidAndGrantAccess env (limitDb env pid sig N k) ⟨k+1, pid, sig⟩ =
      (limitDb env pid sig N (k+1), .ok (limitPaidOrder env pid sig (k+1))) := by
  unfold markOrderPaidAndGrantAccess
  rw [limit_settleTx_success env pid sig N k hk]

lemma limit_guard_false (N : Nat) (hN : 0 < N) :
    promoUsageGuard "LIMITED" (limitPromo N N) = false := by
  have h1 : ¬ ((N : ℤ) = 0) := by
    intro h
    exact absurd (by exact_mod_cast h : N = 0) (by omega)
  unfold promoUsageGuard limitPromo
  simp [h1]

lemma limit_settleTx_fail (env : Env) (pid sig : String) (N : Nat) (hN : 0 < N) :
    settleTx env (limitDb env pid sig N N) ⟨N+1, pid, sig⟩ =
      .error "Promo code usage limit exceeded" := by
  unfold settleTx
  rw [show (⟨N+1, pid, sig⟩ : SettleArgs).orderId = N + 1 from rfl,
      findOrder_limitDb env pid sig N N (N+1) (by omega) (by omega),
      if_neg (by omega : ¬ N + 1 ≤ N)]
  show settleCore env (limitDb env pid sig N N) ⟨N+1, pid, sig⟩ (limitPendingOrder (N+1)) =
    .error "Promo code usage limit exceeded"
  unfold settleCore
  rw [settlePaid_limit]
  have hps : settlePromoStep
      (updateOrder (limitDb env pid sig N N) (limitPaidOrder env pid sig (N+1)))
      (limitPaidOrder env pid sig (N+1)) =
      .error "Promo code usage limit exceeded" := by
    unfold settlePromoStep
    show updatePromoUsage
      (updateOrder (limitDb env pid sig N N) (limitPaidOrder env pid sig (N+1))) "LIMITED" =
      .error "Promo code usage limit exceeded"
    unfold updatePromoUsage
    rw [show (updateOrder (limitDb env pid sig N N)
        (limitPaidOrder env pid sig (N+1))).promos = [limitPromo N N] from rfl]
    rw [show ([limitPromo N N].any (promoUsageGuard "LIMITED")) = false by
      simp [List.any_cons, limit_guard_false N hN]]
    rfl
  unfold settleGrantStep
  rw [hps]

lemma limit_step_fail (env : Env) (pid sig : String) (N : Nat) (hN : 0 < N) :
    markOrderPaidAndGrantAccess env (limitDb env pid sig N N) ⟨N+1, pid, sig⟩ =
      (limitDb env pid sig N N, .error "Promo code usage limit exceeded") := by
  unfold markOrderPaidAndGrantAccess
  rw [limit_settleTx_fail env pid sig N hN]

lemma limit_loop (env : Env) (pid sig : String) (N : Nat) (hN : 0 < N) :
    ∀ (c k acc : Nat), k + c = N + 1 → k ≤ N →
      List.foldl
        (fun acc i =>
          match markOrderPaidAndGrantAccess env acc.1 ⟨i, pid, sig⟩ with
          | (d, .ok _) => (d, acc.2)
          | (d, .error _) => (d, acc.2 + 1))
        (limitDb env pid sig N k, acc) (idList (k+1) c) =
      (limitDb env pid sig N N, acc + 1) := by
  intro c
  induction c with
  | zero => intro k acc h1 h2; omega
  | succ c ih =>
    intro k acc h1 h2
    rw [show idList (k+1) (c+1) = (k+1) :: idList (k+1+1) c from rfl, List.foldl_cons]
    by_cases hk : k < N
    · rw [limit_step_success env pid sig N k hk]
      exact ih (k+1) acc (by omega) (by omega)
    · have hkN : k = N := le_antisymm h2 (not_lt.1 hk)
      have hc0 : c = 0 := by omega
      subst hc0
      rw [show idList (k+1+1) 0 = [] from rfl, List.foldl_nil, hkN,
          limit_step_fail env pid sig N hN]

lemma updatePromoUsage_invariant {db : DB} {c : String} {db2 : DB}
    (h : updatePromoUsage db c = .ok db2)
    (hinv : ∀ p ∈ db.promos, ∀ l : ℤ, p.usageLimit = some l → 0 < l → p.usedCount ≤ l) :
    ∀ p ∈ db2.promos, ∀ l : ℤ, p.usageLimit = some l → 0 < l → p.usedCount ≤ l := by
  intro p hp l hl h0
  have hfields := updatePromoUsage_ok_fields h
  rw [hfields.2.2] at hp
  rcases mem_updateFirst _ _ _ _ hp with hmem | ⟨q, hq, hguard, hpq⟩
  · exact hinv p hmem l hl h0
  · subst hpq
    have hql : q.usageLimit = some l := hl
    unfold promoUsageGuard at hguard
    simp only [hql, Bool.and_eq_true, Bool.or_eq_true, beq_iff_eq,
      Option.some.injEq, decide_eq_true_eq] at hguard
    rcases hguard with ⟨-, (hbad | h0l) | hlt⟩
    · exact absurd hbad (by simp)
    · omega
    · show q.usedCount + 1 ≤ l
      omega

lemma settle_promoInvariant (env : Env) (db : DB) (a : SettleArgs)
    (hinv : promoInvariant db) :
    promoInvariant (markOrderPaidAndGrantAccess env db a).1 := by
  rcases hres : markOrderPaidAndGrantAccess env db a with ⟨db1, r⟩
  cases r with
  | error e =>
    have hd := (markOrder_error hres).1
    show promoInvariant db1
    rw [hd]
    exact hinv
  | ok o =>
    have hs : settleTx env db a = .ok (db1, o) := markOrder_ok hres
    show promoInvariant db1
    unfold settleTx at hs
    split at hs
    · exact absurd hs (by simp)
    · rename_i order heq
      split at hs
      · injection hs with h
        have hd : db = db1 := congrArg Prod.fst h
        rw [← hd]
        exact hinv
      · split at hs
        · exact absurd hs (by simp)
        · unfold settleCore settleGrantStep at hs
          split at hs
          · exact absurd hs (by simp)
          · rename_i dbx hps
            split at hs
            · exact absurd hs (by simp)
            · rename_i user hfu
              split at hs
              · exact absurd hs (by simp)
              · injection hs with h
                have hd := (Prod.mk.injEq _ _ _ _ ▸ h).1
                have hdbx : ∀ p ∈ dbx.promos, ∀ l : ℤ,
                    p.usageLimit = some l → 0 < l → p.usedCount ≤ l := by
                  unfold settlePromoStep at hps
                  split at hps
                  · exact updatePromoUsage_invariant hps (fun p hp => hinv p hp)
                  · injection hps with h2
                    subst h2
                    exact fun p hp => hinv p hp
                intro p hp l hl h0
                rw [← hd] at hp
                exact hdbx p hp l hl h0



/-- **C4**: for every promo code with a positive `usageLimit`,
`usedCount ≤ usageLimit` is preserved by every settlement call (the only
increment goes through the single guarded conditional update inside the
transaction, and a failed guard aborts the whole settlement leaving the
store untouched); and settling the `N+1` pending orders that all reference
a code with `usageLimit = N` yields exactly `N` increments (the final store
carries the code at `usedCount = N`) together with exactly one
usage-limit-exceeded error. -/
theorem promo_capacity_guard (env : Env) (pid sig : String) (N : Nat) (hN : 0 < N) :
    (∀ (db : DB) (a : SettleArgs), promoInvariant db →
        promoInvariant (markOrderPaidAndGrantAccess env db a).1) ∧
    settleAll env pid sig (limitDb env pid sig N 0) (idList 1 (N + 1)) =
      (limitDb env pid sig N N, 1) ∧
    (limitDb env pid sig N N).promos = [limitPromo N N] ∧
    (limitPromo N N).usedCount = (N : ℤ) := by
  refine ⟨fun db a hinv => settle_promoInvariant env db a hinv, ?_, rfl, rfl⟩
  unfold settleAll
  exact limit_loop env pid sig N hN (N + 1) 0 0 (by omega) (by omega)

/-- Witness for C4 at `N = 1`: two orders against a limit-1 code settle to
the store with `usedCount = 1` and exactly one throw. -/
theorem promo_capacity_guard_witness :
    0 < 1 ∧
      settleAll env0 "pay" "sig" (limitDb env0 "pay" "sig" 1 0) (idList 1 2) =
        (limitDb env0 "pay" "sig" 1 1, 1) :=
  ⟨Nat.one_pos, (promo_capacity_guard env0 "pay" "sig" 1 Nat.one_pos).2.1⟩

end KumarVisuals
